import Mathlib

/-!
# Verification of the ESP game-console core (`espoyunkonsolu.ino`)

Shallow embedding of the real-time game engine of the sketch: joystick
calibration and signal conditioning, the grid-maze tank movement (`game1`),
and the lane-dodge session loop (`game2`) with its entity pools, spawner,
collision passes and dirty-rectangle render differ.

Modelling conventions:
* C `float` arithmetic is modelled exactly by `ℚ`; every claim settled here
  is structural (branch conditions, caches, counts, orderings) and does not
  depend on rounding of non-representable values.
* The C cast `(int)f` truncates toward zero; `truncQ` mirrors it.
* Float division by a zero-width range (which yields NaN/Inf on the target,
  not a number) is surfaced as `Option.none` in `normalizeChecked`.
* Hardware reads (`analogRead`, `digitalRead`, `millis`, `random`) become
  explicit parameters; `random(lo,hi)` is modelled as `lo + r % (hi-lo)`
  from an oracle stream, which has exactly the code's range guarantee.
-/

namespace ESPConsole

/-- C cast from float to int: truncation toward zero (num/den in t-division). -/
def truncQ (q : ℚ) : Int := q.num.tdiv (q.den : Int)

/-! ## Input Conditioner (lines 546-574 and 676-684) -/

/-- `struct JoystickCalib { int minVal, maxVal, center; }` (line 547). -/
structure JoystickCalib where
  minVal : Int
  maxVal : Int
  center : Int
deriving DecidableEq, Repr

/-- Calibration routine, lines 555-569: the center is one raw sample taken
at rest; the sweep accumulates `min`/`max` over the observed samples,
starting from `minVal = 4095`, `maxVal = 0`. -/
def calibrate (center : Int) (sweep : List Int) : JoystickCalib :=
  { minVal := sweep.foldl min 4095
    maxVal := sweep.foldl max 0
    center := center }

/-- Lines 677-678: clamp the raw sample into `[minVal, maxVal]`. -/
def clampRaw (c : JoystickCalib) (raw : Int) : Int :=
  let r := if raw < c.minVal then c.minVal else raw
  if r > c.maxVal then c.maxVal else r

/-- Arduino `constrain` macro. -/
def constrainQ (q lo hi : ℚ) : ℚ := if q < lo then lo else if q > hi then hi else q

/-- Lines 679-682: piecewise-linear normalization above/below center, then
`constrain(n,-1,1)`. The code divides with no degenerate-range guard; a
zero divisor (which produces NaN on the target) is surfaced as `none`. -/
def normalizeChecked (c : JoystickCalib) (raw0 : Int) : Option ℚ :=
  let raw := clampRaw c raw0
  if c.center ≤ raw then
    if c.maxVal - c.center = 0 then none
    else some (constrainQ (((raw - c.center : Int) : ℚ) / ((c.maxVal - c.center : Int) : ℚ)) (-1) 1)
  else
    if c.center - c.minVal = 0 then none
    else some (constrainQ (((raw - c.center : Int) : ℚ) / ((c.center - c.minVal : Int) : ℚ)) (-1) 1)

def DEADZONE_RATIO : ℚ := 15/100

/-- Line 683: `if(abs(n) < DEADZONE_RATIO) n=0.0f;` (`abs(n) < r` written as
the equivalent two-sided comparison to stay kernel-computable). -/
def applyDeadzone (n : ℚ) : ℚ :=
  if - DEADZONE_RATIO < n ∧ n < DEADZONE_RATIO then 0 else n

/-- The conditioned per-frame control value before smoothing (lines 676-683). -/
def conditionSignal (c : JoystickCalib) (raw : Int) : Option ℚ :=
  (normalizeChecked c raw).map applyDeadzone

/-- Line 684: `lastN = lastN*0.6f + n*0.4f`. -/
def smooth (lastN n : ℚ) : ℚ := lastN * (6/10) + n * (4/10)

/-! ## Grid-maze tank (`game1`, lines 369-433) -/

/-- The 8x8 maze of line 369 (1 = wall, 0 = floor), row-major. -/
def gameMap : List (List Nat) :=
  [[1,1,1,1,1,1,1,1],
   [1,0,0,1,0,0,0,1],
   [1,0,1,1,0,1,0,1],
   [1,0,0,0,0,1,0,1],
   [1,1,0,1,0,0,0,1],
   [1,0,0,0,1,1,0,1],
   [1,0,1,0,0,0,0,1],
   [1,1,1,1,1,1,1,1]]

/-- `gameMap[y][x]` for in-bounds indices (callers bounds-check first). -/
def mapAt (y x : Int) : Nat := (gameMap.getD y.toNat []).getD x.toNat 1

def MAP_SIZE : Int := 8
def JOY_THRESHOLD_LOW : Int := 1000
def JOY_THRESHOLD_HIGH : Int := 3000

structure Tank where
  x : Int
  y : Int
  dir : Int
deriving DecidableEq, Repr

/-- The requested move of `readJoystickAndFire` (lines 423-426): the
joystick picks at most one direction per step, Y axis taking priority. -/
def tankTarget (joyX joyY : Int) (t : Tank) : Option (Int × Int × Int) :=
  if joyY < JOY_THRESHOLD_LOW then some (t.x, t.y - 1, 0)
  else if joyY > JOY_THRESHOLD_HIGH then some (t.x, t.y + 1, 2)
  else if joyX < JOY_THRESHOLD_LOW then some (t.x - 1, t.y, 3)
  else if joyX > JOY_THRESHOLD_HIGH then some (t.x + 1, t.y, 1)
  else none

/-- Validity check of line 429: in bounds and on a floor cell. -/
def cellFree (x y : Int) : Prop := 0 ≤ x ∧ x < MAP_SIZE ∧ 0 ≤ y ∧ y < MAP_SIZE ∧ mapAt y x = 0

instance (x y : Int) : Decidable (cellFree x y) := by unfold cellFree; infer_instance

/-- Movement part of `readJoystickAndFire` (lines 419-433): the direction is
updated on any requested move, the position only when the target cell is
free. -/
def tankMoveStep (joyX joyY : Int) (t : Tank) : Tank :=
  match tankTarget joyX joyY t with
  | none => t
  | some (nx, ny, nd) =>
      if cellFree nx ny then { x := nx, y := ny, dir := nd }
      else { t with dir := nd }

def tankValid (t : Tank) : Prop := cellFree t.x t.y

instance (t : Tank) : Decidable (tankValid t) := by unfold tankValid; infer_instance

/-! ## Claim theorems: input conditioner and tank -/

/-- **C3** (code evaluated at the failing input): the calibration routine can
produce a zero-width range (`min = max = center`, here when the rest sample
and every sweep sample read 2000), and on that calibration the per-frame
normalization reaches the division with a zero divisor — there is no
degenerate-range check, so no constant-zero signal is produced. -/
theorem c3_degenerate_calibration_divides_by_zero :
    calibrate 2000 [2000] = ⟨2000, 2000, 2000⟩ ∧
    normalizeChecked (calibrate 2000 [2000]) 2000 = none := by
  constructor
  · rfl
  · rfl

/-- Scenario evaluation: raw at center conditions to 0. -/
theorem conditionSignal_center :
    conditionSignal ⟨200, 3800, 2000⟩ 2000 = some 0 := by
  norm_num [conditionSignal, normalizeChecked, clampRaw, constrainQ, applyDeadzone,
    DEADZONE_RATIO]

/-- Scenario evaluation: raw at max conditions to 1. -/
theorem conditionSignal_max :
    conditionSignal ⟨200, 3800, 2000⟩ 3800 = some 1 := by
  norm_num [conditionSignal, normalizeChecked, clampRaw, constrainQ, applyDeadzone,
    DEADZONE_RATIO]

/-- Bounds of the Arduino `constrain` macro. -/
theorem constrainQ_mem (q lo hi : ℚ) (h : lo ≤ hi) :
    lo ≤ constrainQ q lo hi ∧ constrainQ q lo hi ≤ hi := by
  unfold constrainQ
  split
  · exact ⟨le_refl _, h⟩
  · split
    · exact ⟨h, le_refl _⟩
    · next h1 h2 => exact ⟨le_of_not_lt h1, le_of_not_lt h2⟩

/-- **C6**: for any calibration with `min ≤ max` and `center < max`, the raw
sample is first clamped into `[min, max]`, the normalization is defined (no
zero divisor on the taken branch) and its output lies in `[-1, 1]`; and for
the scenario calibration `{min=200, max=3800, center=2000}`, raw `2000`
(the center) conditions to `0` and raw `3800` (the max) to `1`. -/
theorem c6_conditioner_range (c : JoystickCalib) (raw : Int)
    (hmm : c.minVal ≤ c.maxVal) (hcm : c.center < c.maxVal) :
    (c.minVal ≤ clampRaw c raw ∧ clampRaw c raw ≤ c.maxVal) ∧
    (∃ n, normalizeChecked c raw = some n ∧ -1 ≤ n ∧ n ≤ 1) ∧
    conditionSignal ⟨200, 3800, 2000⟩ 2000 = some 0 ∧
    conditionSignal ⟨200, 3800, 2000⟩ 3800 = some 1 := by
  have hclamp : c.minVal ≤ clampRaw c raw ∧ clampRaw c raw ≤ c.maxVal := by
    unfold clampRaw
    dsimp only
    split
    · split
      · exact ⟨hmm, le_refl _⟩
      · next h1 h2 => exact ⟨le_refl _, le_of_not_lt h2⟩
    · split
      · exact ⟨hmm, le_refl _⟩
      · next h1 h2 => exact ⟨le_of_not_lt h1, le_of_not_lt h2⟩
  refine ⟨hclamp, ?_, conditionSignal_center, conditionSignal_max⟩
  unfold normalizeChecked
  dsimp only
  split
  · have hne : ¬ (c.maxVal - c.center = 0) := by omega
    rw [if_neg hne]
    exact ⟨_, rfl, (constrainQ_mem _ _ _ (by norm_num)).1, (constrainQ_mem _ _ _ (by norm_num)).2⟩
  · next hlt =>
    have hne : ¬ (c.center - c.minVal = 0) := by
      have := hclamp.1
      omega
    rw [if_neg hne]
    exact ⟨_, rfl, (constrainQ_mem _ _ _ (by norm_num)).1, (constrainQ_mem _ _ _ (by norm_num)).2⟩

/-- Witness for C6 at the scenario calibration and raw sample 2500. -/
theorem c6_conditioner_range_witness :
    (((200:Int) ≤ clampRaw ⟨200, 3800, 2000⟩ 2500 ∧ clampRaw ⟨200, 3800, 2000⟩ 2500 ≤ 3800) ∧
    (∃ n, normalizeChecked ⟨200, 3800, 2000⟩ 2500 = some n ∧ -1 ≤ n ∧ n ≤ 1) ∧
    conditionSignal ⟨200, 3800, 2000⟩ 2000 = some 0 ∧
    conditionSignal ⟨200, 3800, 2000⟩ 3800 = some 1) :=
  c6_conditioner_range ⟨200, 3800, 2000⟩ 2500 (by decide) (by decide)

/-- **C10**: from any legal tank cell, one movement step of
`readJoystickAndFire` keeps the tank inside the 8x8 map on a floor cell,
and a requested move whose target cell is a wall or out of bounds leaves
the tank's position unchanged. -/
theorem c10_tank_stays_on_floor (joyX joyY : Int) (t : Tank) (h : tankValid t) :
    tankValid (tankMoveStep joyX joyY t) ∧
    (∀ nx ny nd, tankTarget joyX joyY t = some (nx, ny, nd) → ¬ cellFree nx ny →
      (tankMoveStep joyX joyY t).x = t.x ∧ (tankMoveStep joyX joyY t).y = t.y) := by
  constructor
  · unfold tankMoveStep
    cases htgt : tankTarget joyX joyY t with
    | none => exact h
    | some p =>
      obtain ⟨nx, ny, nd⟩ := p
      dsimp only
      split
      · next hfree => exact hfree
      · exact h
  · intro nx ny nd htgt hbad
    unfold tankMoveStep
    rw [htgt]
    dsimp only
    rw [if_neg hbad]
    exact ⟨rfl, rfl⟩

/-- Witness for C10: tank at the start cell (1,1), joystick pushed up; the
target cell (1,0) is a wall, so the position is unchanged and stays legal. -/
theorem c10_tank_stays_on_floor_witness :
    tankValid (tankMoveStep 2000 500 ⟨1, 1, 0⟩) ∧
    (∀ nx ny nd, tankTarget 2000 500 ⟨1, 1, 0⟩ = some (nx, ny, nd) → ¬ cellFree nx ny →
      (tankMoveStep 2000 500 ⟨1, 1, 0⟩).x = (1:Int) ∧ (tankMoveStep 2000 500 ⟨1, 1, 0⟩).y = (1:Int)) :=
  c10_tank_stays_on_floor 2000 500 ⟨1, 1, 0⟩ (by decide)

/-! ## Kernel-computable rational arithmetic

`Rat.add`, `Rat.sub` and `Rat.mul` are irreducible, so the embedding uses
`mkRat` forms; the bridge lemmas prove they are exactly the standard
operations. -/

def qAdd (a b : ℚ) : ℚ := mkRat (a.num * b.den + b.num * a.den) (a.den * b.den)

def qSub (a b : ℚ) : ℚ := mkRat (a.num * b.den - b.num * a.den) (a.den * b.den)

def qMul (a b : ℚ) : ℚ := mkRat (a.num * b.num) (a.den * b.den)

theorem qAdd_eq (a b : ℚ) : qAdd a b = a + b := (Rat.add_def' a b).symm

theorem qSub_eq (a b : ℚ) : qSub a b = a - b := (Rat.sub_def' a b).symm

theorem qMul_eq (a b : ℚ) : qMul a b = a * b := by
  rw [qMul, Rat.mul_def, Rat.normalize_eq_mkRat]

/-! ## Lane-dodge shooter (`game2`): constants and data model -/

def scrW : Int := 128
def scrH : Int := 160
def CAR_W : Int := 28
def CAR_H : Int := 20
def roadX : Int := 6
def roadW : Int := 116
def LANE_COUNT : Nat := 7
def MAX_ENEMIES : Nat := 4
def MAX_PLAYER_BULLETS : Nat := 6
def MAX_ENEMY_BULLETS : Nat := 10
def laneW : ℚ := mkRat 116 7
def playerYpos : Int := 132
def PLAYER_MAX_SPEED : ℚ := 5
def PLAYER_ACCEL : ℚ := mkRat 3 5
def BASE_ENEMY_SPEED : ℚ := mkRat 6 5
def PLAYER_FIRE_COOLDOWN : Nat := 220
def SPAWN_MIN_GAP_PIXELS : Int := 44

/-- `struct Bullet { float x, y; float vy; bool active; }` (line 582). -/
structure Bullet where
  x : ℚ
  y : ℚ
  vy : ℚ
  active : Bool
deriving DecidableEq, Repr

/-- `struct Enemy { float x, y; float speed; bool active; unsigned long
nextFireAt; int lane; }` (line 583). -/
structure Enemy where
  x : ℚ
  y : ℚ
  speed : ℚ
  active : Bool
  nextFireAt : Nat
  lane : Nat
deriving DecidableEq, Repr

/-- A cached previous screen position (`prev...X`/`prev...Y` pair). -/
abbrev Pos := Int × Int

/-- Kinds of renderable things, used to tag trace events. -/
inductive EntKind where
  | player
  | enemy
  | pbullet
  | ebullet
  | explosion
  | hud
deriving DecidableEq, Repr

/-- One observable action of a frame: a physics (position) mutation, a slot
activation, one collision evaluation, a draw, an erase (split by whether it
erases the stale previous rectangle or the rectangle of an entity that is
being deactivated), or the exit-button poll. Erases are emitted only when
`eraseRect`'s clipping actually issues a fill. -/
inductive Ev where
  | physics (k : EntKind) (slot : Nat)
  | spawnEv (k : EntKind) (slot : Nat)
  | colTest (k : EntKind) (slot : Nat)
  | draw (k : EntKind) (slot : Nat) (x y : Int)
  | eraseStale (k : EntKind) (slot : Nat) (x y w h : Int)
  | eraseDead (k : EntKind) (slot : Nat) (x y w h : Int)
  | exitCheck
deriving DecidableEq, Repr

def Ev.isPhysics : Ev → Bool
  | .physics .. => true
  | _ => false

def Ev.isColTest : Ev → Bool
  | .colTest .. => true
  | _ => false

def Ev.isRender : Ev → Bool
  | .draw .. => true
  | .eraseStale .. => true
  | .eraseDead .. => true
  | _ => false

def Ev.isExitCheck : Ev → Bool
  | .exitCheck => true
  | _ => false

/-- The clipping of `eraseRect` (lines 619-630): whether a fill is issued. -/
def eraseVisible (x y w h : Int) : Bool :=
  if w ≤ 0 ∨ h ≤ 0 then false
  else
    let rx := if x < 0 then 0 else x
    let rw := if x < 0 then w + x else w
    let ry := if y < 0 then 0 else y
    let rh := if y < 0 then h + y else h
    if rx ≥ scrW ∨ ry ≥ scrH then false
    else
      let rw2 := if rx + rw > scrW then scrW - rx else rw
      let rh2 := if ry + rh > scrH then scrH - ry else rh
      if rw2 ≤ 0 ∨ rh2 ≤ 0 then false else true

/-- Emit an erase event exactly when `eraseRect` issues a fill. -/
def emitErase (mk : Int → Int → Int → Int → Ev) (x y w h : Int) : List Ev :=
  if eraseVisible x y w h then [mk x y w h] else []

/-- First index satisfying `p` — the slot-search loops of the code
(`for(...) if(!pool[i].active){idx=i;break;}`). -/
def findIdxP (p : α → Bool) : List α → Option Nat
  | [] => none
  | a :: rest => if p a then some 0 else (findIdxP p rest).map (· + 1)

/-- The AABB overlap test of lines 762 and 778 (tolerance ±2 horizontal,
±4 vertical): `!(bx+2<ex || bx-2>ex+CAR_W || by+4<ey || by-4>ey+CAR_H)`. -/
def hitTest (bx byv ex ey : Int) : Bool :=
  !(decide (bx + 2 < ex) || decide (bx - 2 > ex + CAR_W) ||
    decide (byv + 4 < ey) || decide (byv - 4 > ey + CAR_H))

/-- `random(lo,hi)` from one oracle draw: a value in `[lo, hi)`. -/
def randIn (r lo hi : Nat) : Nat := lo + r % (hi - lo)

/-! ## Per-slot movement and render-differ steps -/

/-- Threaded state of the enemy loop: the enemy-bullet pool it can fire
into, the bullet caches, the random-oracle counter and the event trace. -/
structure EnemyPassSt where
  eb : List Bullet
  prevEB : List Pos
  k : Nat
  evs : List Ev
deriving Repr

/-- Lines 722-730: allocate an enemy bullet from the first free slot
(silent no-op when the pool is exhausted). -/
def fireEnemyBullet (e : Enemy) (difficulty : ℚ) (s : EnemyPassSt) : EnemyPassSt :=
  match findIdxP (fun b => !b.active) s.eb with
  | none => s
  | some bi =>
      { s with
        eb := s.eb.set bi
          { x := qAdd e.x 14        -- enemies[e].x + CAR_W/2
            y := qAdd e.y 24        -- enemies[e].y + CAR_H + 4
            vy := qAdd 3 (qMul difficulty (mkRat 3 5))   -- 3.0f + difficulty*0.6f
            active := true }
        prevEB := s.prevEB.set bi (-100, -100)
        evs := s.evs ++ [Ev.spawnEv .ebullet bi] }

/-- One iteration of the enemy loop, lines 714-733: erase the stale
rectangle, integrate `y`, draw, update the cache, then either deactivate
(and erase) past the bottom edge or fire when the clock passes
`nextFireAt`. `speedMultiplier` is the constant `1.0f`. -/
def enemySlotStep (now : Nat) (difficulty : ℚ) (rnd : Nat → Nat) (idx : Nat)
    (e : Enemy) (prev : Pos) (s : EnemyPassSt) : Enemy × Pos × EnemyPassSt :=
  if e.active then
    let evs1 := if prev.2 ≥ -1000 then
        emitErase (Ev.eraseStale .enemy idx) prev.1 prev.2 CAR_W (CAR_H + 4)
      else []
    let e1 : Enemy := { e with y := qAdd e.y e.speed }
    let p' : Pos := (truncQ e1.x, truncQ e1.y)
    let evs2 := evs1 ++ [Ev.physics .enemy idx, Ev.draw .enemy idx p'.1 p'.2]
    if e1.y > 160 then        -- enemies[e].y > scrH
      ({ e1 with active := false }, p',
        { s with evs := s.evs ++ evs2 ++ emitErase (Ev.eraseDead .enemy idx) p'.1 p'.2 CAR_W (CAR_H + 4) })
    else if e1.nextFireAt ≤ now then
      let s1 := fireEnemyBullet e1 difficulty { s with evs := s.evs ++ evs2 }
      ({ e1 with nextFireAt := now + randIn (rnd s1.k) 900 2200 }, p',
        { s1 with k := s1.k + 1 })
    else (e1, p', { s with evs := s.evs ++ evs2 })
  else (e, prev, s)

/-- The enemy loop over all slots in index order. -/
def enemyPassGo (now : Nat) (difficulty : ℚ) (rnd : Nat → Nat) :
    Nat → List (Enemy × Pos) → EnemyPassSt → List (Enemy × Pos) × EnemyPassSt
  | _, [], s => ([], s)
  | idx, ep :: rest, s =>
      let r := enemySlotStep now difficulty rnd idx ep.1 ep.2 s
      let rr := enemyPassGo now difficulty rnd (idx + 1) rest r.2.2
      ((r.1, r.2.1) :: rr.1, rr.2)

/-- One iteration of the player-bullet loop, lines 736-743. -/
def pbSlotStep (idx : Nat) (b : Bullet) (prev : Pos) : Bullet × Pos × List Ev :=
  if b.active then
    let evs1 := if prev.2 ≥ 0 then
        emitErase (Ev.eraseStale .pbullet idx) (prev.1 - 3) (prev.2 - 6) 6 12
      else []
    let b1 : Bullet := { b with y := qAdd b.y b.vy }
    let p' : Pos := (truncQ b1.x, truncQ b1.y)
    let evs2 := evs1 ++ [Ev.physics .pbullet idx, Ev.draw .pbullet idx p'.1 p'.2]
    if b1.y < -12 then
      ({ b1 with active := false }, p',
        evs2 ++ emitErase (Ev.eraseDead .pbullet idx) (p'.1 - 3) (p'.2 - 6) 6 12)
    else (b1, p', evs2)
  else (b, prev, [])

/-- One iteration of the enemy-bullet loop, lines 746-753. -/
def ebSlotStep (idx : Nat) (b : Bullet) (prev : Pos) : Bullet × Pos × List Ev :=
  if b.active then
    let evs1 := if prev.2 ≥ 0 then
        emitErase (Ev.eraseStale .ebullet idx) (prev.1 - 3) (prev.2 - 6) 6 12
      else []
    let b1 : Bullet := { b with y := qAdd b.y b.vy }
    let p' : Pos := (truncQ b1.x, truncQ b1.y)
    let evs2 := evs1 ++ [Ev.physics .ebullet idx, Ev.draw .ebullet idx p'.1 p'.2]
    if b1.y > 172 then        -- enemyBullets[b].y > scrH + 12
      ({ b1 with active := false }, p',
        evs2 ++ emitErase (Ev.eraseDead .ebullet idx) (p'.1 - 3) (p'.2 - 6) 6 12)
    else (b1, p', evs2)
  else (b, prev, [])

/-- A bullet loop over all slots in index order. -/
def bulletPassGo (step : Nat → Bullet → Pos → Bullet × Pos × List Ev) :
    Nat → List (Bullet × Pos) → List (Bullet × Pos) × List Ev
  | _, [] => ([], [])
  | idx, bp :: rest =>
      let r := step idx bp.1 bp.2
      let rr := bulletPassGo step (idx + 1) rest
      ((r.1, r.2.1) :: rr.1, r.2.2 ++ rr.2)

/-! ## Collision passes (lines 756-784) -/

/-- The inner loop of the player-bullet collision pass (lines 758-771) for
one bullet (slot `bi`, integer position `(bx,byv)`, cached previous
position `prevB`): every still-active enemy is tested; on a hit the enemy
deactivates, the enemy rectangle and the bullet's cached rectangle are
erased, the score reward is added, and the explosion flash is drawn and
erased. The loop does not re-check the bullet's own active flag. -/
def pbScanEnemies (bi : Nat) (bx byv : Int) (prevB : Pos) :
    Nat → List Enemy → List Enemy × Bool × Nat × List Ev
  | _, [] => ([], false, 0, [])
  | ei, e :: rest =>
      if e.active then
        if hitTest bx byv (truncQ e.x) (truncQ e.y) then
          let ex := truncQ e.x
          let ey := truncQ e.y
          let evs := [Ev.colTest .enemy ei]
            ++ emitErase (Ev.eraseDead .enemy ei) ex ey CAR_W (CAR_H + 4)
            ++ emitErase (Ev.eraseDead .pbullet bi) (prevB.1 - 3) (prevB.2 - 6) 6 12
            ++ [Ev.draw .explosion ei (ex + 4) (ey + 4)]
            ++ emitErase (Ev.eraseStale .explosion ei) (ex + 4) (ey + 4) (CAR_W - 8) (CAR_H - 8)
          let rr := pbScanEnemies bi bx byv prevB (ei + 1) rest
          ({ e with active := false } :: rr.1, true, 10 + rr.2.2.1, evs ++ rr.2.2.2)
        else
          let rr := pbScanEnemies bi bx byv prevB (ei + 1) rest
          (e :: rr.1, rr.2.1, rr.2.2.1, Ev.colTest .enemy ei :: rr.2.2.2)
      else
        let rr := pbScanEnemies bi bx byv prevB (ei + 1) rest
        (e :: rr.1, rr.2.1, rr.2.2.1, rr.2.2.2)

/-- The outer loop of the player-bullet collision pass (lines 756-772):
each bullet that was active at the start of the pass scans the enemy pool;
the bullet is deactivated when its scan registered at least one hit. -/
def pbCollisionPass : Nat → List (Bullet × Pos) → List Enemy →
    List (Bullet × Pos) × List Enemy × Nat × List Ev
  | _, [], ens => ([], ens, 0, [])
  | bi, bp :: rest, ens =>
      if bp.1.active then
        let r := pbScanEnemies bi (truncQ bp.1.x) (truncQ bp.1.y) bp.2 0 ens
        let b' := if r.2.1 then { bp.1 with active := false } else bp.1
        let rr := pbCollisionPass (bi + 1) rest r.1
        ((b', bp.2) :: rr.1, rr.2.1, r.2.2.1 + rr.2.2.1, r.2.2.2 ++ rr.2.2.2)
      else
        let rr := pbCollisionPass (bi + 1) rest ens
        ((bp.1, bp.2) :: rr.1, rr.2.1, rr.2.2.1, rr.2.2.2)

/-- The enemy-bullet vs. player pass (lines 774-784): the first active
bullet that overlaps the player rectangle deactivates, its cached
rectangle is erased, the game-over flag is raised and the loop breaks. -/
def ebPlayerScan (px py : Int) : Nat → List (Bullet × Pos) →
    List (Bullet × Pos) × Bool × List Ev
  | _, [] => ([], false, [])
  | bi, bp :: rest =>
      if bp.1.active then
        if hitTest (truncQ bp.1.x) (truncQ bp.1.y) px py then
          (({ bp.1 with active := false }, bp.2) :: rest, true,
            Ev.colTest .ebullet bi ::
              emitErase (Ev.eraseDead .ebullet bi) (bp.2.1 - 3) (bp.2.2 - 6) 6 12)
        else
          let rr := ebPlayerScan px py (bi + 1) rest
          ((bp.1, bp.2) :: rr.1, rr.2.1, Ev.colTest .ebullet bi :: rr.2.2)
      else
        let rr := ebPlayerScan px py (bi + 1) rest
        ((bp.1, bp.2) :: rr.1, rr.2.1, rr.2.2)

/-! ## Spawn Director (`spawnEnemiesWave`, lines 633-653)

The shuffle of `laneIndices` at lines 634-635 writes a local array that is
never read afterwards, so it is omitted; the random-oracle indices are
renumbered accordingly. -/

/-- One Fisher-Yates swap on a list (array indices always in range in the
code; the guard makes the model total). -/
def swapL (l : List Nat) (i j : Nat) : List Nat :=
  if i < l.length ∧ j < l.length then (l.set i (l.getD j 0)).set j (l.getD i 0) else l

/-- `for(i=ac-1;i>0;i--){ j=random(0,i+1); swap(avail[i],avail[j]); }`
(line 639), counting `i` down; returns the list and the next oracle index. -/
def shuffleAux (rnd : Nat → Nat) : Nat → List Nat → Nat → List Nat × Nat
  | k, l, 0 => (l, k)
  | k, l, i + 1 => shuffleAux rnd (k + 1) (swapL l (i + 1) (rnd k % (i + 2))) i

/-- `gapLane = random(0, LANE_COUNT)` (line 636). -/
def waveGap (rnd : Nat → Nat) (k : Nat) : Nat := rnd k % LANE_COUNT

/-- Lane-center x of a spawned enemy:
`roadX + lane*laneW + (laneW-CAR_W)/2.0f` (line 645). -/
def laneX (lane : Nat) : ℚ :=
  qAdd (qAdd 6 (qMul (mkRat lane 1) laneW)) (qMul (qSub laneW 28) (mkRat 1 2))

/-- The spawn loop of lines 641-652: walk the shuffled gap-free lanes,
allocating each enemy into the first free slot; stop after `MAX_ENEMIES`
spawns or when no slot is free. Each spawn consumes two oracle draws
(speed jitter `random(0,50)` and fire delay `random(900,2200)`). -/
def spawnLoop (now : Nat) (difficulty : ℚ) (rnd : Nat → Nat) :
    Nat → Nat → List Nat → List Enemy → List Enemy × Nat × List Ev
  | k, _, [], ens => (ens, k, [])
  | k, spawned, lane :: rest, ens =>
      if spawned < MAX_ENEMIES then
        match findIdxP (fun e => !e.active) ens with
        | none => (ens, k, [])
        | some idx =>
            let en : Enemy :=
              { x := laneX lane
                y := -(mkRat (spawned * 28 + 8) 1)    -- -(spawned*(CAR_H+8)+8)
                speed := qAdd (qAdd BASE_ENEMY_SPEED (mkRat (rnd k % 50) 50))
                  (qMul difficulty (mkRat 3 25))      -- base + random(0,50)/50 + difficulty*0.12
                active := true
                nextFireAt := now + randIn (rnd (k + 1)) 900 2200
                lane := lane }
            let r := spawnLoop now difficulty rnd (k + 2) (spawned + 1) rest (ens.set idx en)
            (r.1, r.2.1, Ev.spawnEv .enemy idx :: r.2.2)
      else (ens, k, [])

/-- `spawnEnemiesWave(difficulty)` (lines 633-653): choose the gap lane,
build the list of the other lanes, shuffle it, then run the spawn loop. -/
def spawnEnemiesWave (now : Nat) (difficulty : ℚ) (rnd : Nat → Nat) (k : Nat)
    (ens : List Enemy) : List Enemy × Nat × List Ev :=
  let gap := waveGap rnd k
  let avail := (List.range LANE_COUNT).filter (fun i => i != gap)
  let shuffled := shuffleAux rnd (k + 1) avail (avail.length - 1)
  spawnLoop now difficulty rnd shuffled.2 0 shuffled.1 ens

/-! ## The frame loop body of `game2` (lines 669-819) -/

structure GState where
  playerX : ℚ
  playerVel : ℚ
  lastN : ℚ
  lastPlayerFire : Nat
  enemies : List Enemy
  pb : List Bullet
  eb : List Bullet
  prevPlayer : Pos
  prevE : List Pos
  prevPB : List Pos
  prevEB : List Pos
  score : Nat
  lastScoreTick : Nat
  isGameOver : Bool
deriving Repr

/-- Per-frame inputs: the conditioned control value `n` (the joystick read
of lines 676-683, modelled by `conditionSignal`), the two buttons, the
clock, the difficulty scalar of line 673 and the random oracle. -/
structure Env where
  n : ℚ
  fireBtn : Bool
  backBtn : Bool
  now : Nat
  difficulty : ℚ
  rnd : Nat → Nat

/-- Lines 684-695: smoothing, acceleration-limited velocity, position
integration, clamping to the road, and the stale-rectangle erase when the
integer position changed. -/
def playerMovePhase (env : Env) (st : GState) : GState × List Ev :=
  let lastN1 := qAdd (qMul st.lastN (mkRat 3 5)) (qMul env.n (mkRat 2 5))
  let targetVel := qMul lastN1 PLAYER_MAX_SPEED
  let v1 :=
    if st.playerVel < targetVel then
      let v := qAdd st.playerVel PLAYER_ACCEL
      if v > targetVel then targetVel else v
    else if st.playerVel > targetVel then
      let v := qSub st.playerVel PLAYER_ACCEL
      if v < targetVel then targetVel else v
    else st.playerVel
  let x1 := qAdd st.playerX v1
  let x2 := if x1 < 6 then (6 : ℚ) else x1            -- playerX < roadX
  let x3 := if x2 > 94 then (94 : ℚ) else x2          -- roadX + roadW - CAR_W
  let evs := Ev.physics .player 0 ::
    (if truncQ st.playerX = truncQ x3 then [] else
      emitErase (Ev.eraseStale .player 0) st.prevPlayer.1 (st.prevPlayer.2 - 6) CAR_W (CAR_H + 6))
  ({ st with playerX := x3, playerVel := v1, lastN := lastN1 }, evs)

/-- Lines 698-709: rate-limited player fire into the first free bullet
slot; a full pool drops the shot. -/
def playerFirePhase (env : Env) (st : GState) : GState × List Ev :=
  if env.fireBtn ∧ PLAYER_FIRE_COOLDOWN ≤ env.now - st.lastPlayerFire ∧ st.isGameOver = false then
    match findIdxP (fun b => !b.active) st.pb with
    | none => (st, [])
    | some bi =>
        ({ st with
            pb := st.pb.set bi
              { x := qAdd st.playerX 14    -- playerX + CAR_W/2
                y := 126                   -- playerY - 6
                vy := mkRat (-13) 2        -- -6.5f
                active := true }
            prevPB := st.prevPB.set bi (-100, -100)
            lastPlayerFire := env.now },
          [Ev.spawnEv .pbullet bi])
  else (st, [])

/-- Lines 712-733: the enemy movement/render/fire loop. -/
def enemyPhase (env : Env) (st : GState) (k : Nat) : GState × Nat × List Ev :=
  let s0 : EnemyPassSt := { eb := st.eb, prevEB := st.prevEB, k := k, evs := [] }
  let r := enemyPassGo env.now env.difficulty env.rnd 0 (st.enemies.zip st.prevE) s0
  ({ st with
      enemies := r.1.map Prod.fst
      prevE := r.1.map Prod.snd
      eb := r.2.eb
      prevEB := r.2.prevEB }, r.2.k, r.2.evs)

/-- Lines 736-743: the player-bullet movement/render loop. -/
def pbPhase (st : GState) : GState × List Ev :=
  let r := bulletPassGo pbSlotStep 0 (st.pb.zip st.prevPB)
  ({ st with pb := r.1.map Prod.fst, prevPB := r.1.map Prod.snd }, r.2)

/-- Lines 746-753: the enemy-bullet movement/render loop. -/
def ebPhase (st : GState) : GState × List Ev :=
  let r := bulletPassGo ebSlotStep 0 (st.eb.zip st.prevEB)
  ({ st with eb := r.1.map Prod.fst, prevEB := r.1.map Prod.snd }, r.2)

/-- Lines 756-784: both collision passes. -/
def collisionPhase (st : GState) : GState × List Ev :=
  let r := pbCollisionPass 0 (st.pb.zip st.prevPB) st.enemies
  let st1 := { st with
    pb := r.1.map Prod.fst
    prevPB := r.1.map Prod.snd
    enemies := r.2.1
    score := st.score + r.2.2.1 }
  let r2 := ebPlayerScan (truncQ st1.playerX) playerYpos 0 (st1.eb.zip st1.prevEB)
  ({ st1 with
      eb := r2.1.map Prod.fst
      prevEB := r2.1.map Prod.snd
      isGameOver := st1.isGameOver || r2.2.1 }, r.2.2.2 ++ r2.2.2)

/-- Lines 787-791: the 200 ms score tick and the HUD redraw. -/
def hudPhase (env : Env) (st : GState) : GState × List Ev :=
  if 200 ≤ env.now - st.lastScoreTick then
    ({ st with score := st.score + 1, lastScoreTick := env.now }, [Ev.draw .hud 0 0 0])
  else (st, [Ev.draw .hud 0 0 0])

/-- Line 795's running maximum of active enemies' integer `y`. -/
def maxActiveY (l : List Enemy) : Int :=
  l.foldl (fun m e => if e.active ∧ truncQ e.y > m then truncQ e.y else m) (-10000)

/-- Lines 794-796: issue a new wave when no enemy is active or the
furthest-advanced active enemy passed the spawn gap threshold. -/
def wavePhase (env : Env) (st : GState) (k : Nat) : GState × Nat × List Ev :=
  if st.enemies.any (·.active) = false ∨ maxActiveY st.enemies > SPAWN_MIN_GAP_PIXELS then
    let r := spawnEnemiesWave env.now env.difficulty env.rnd k st.enemies
    ({ st with enemies := r.1 }, r.2.1, r.2.2)
  else (st, k, [])

/-- Lines 798-801: draw the player and update its cache. -/
def playerDrawPhase (st : GState) : GState × List Ev :=
  let px := truncQ st.playerX
  ({ st with prevPlayer := (px, playerYpos) }, [Ev.draw .player 0 px playerYpos])

inductive Outcome where
  | running
  | exited
  | gameOver
deriving DecidableEq, Repr

/-- Lines 804-818: the back button exits immediately; otherwise a raised
game-over flag ends the session on the terminal screen. -/
def sessionOutcome (backBtn isGameOver : Bool) : Outcome :=
  if backBtn then .exited else if isGameOver then .gameOver else .running

/-- One full iteration of the `while(true)` frame loop of `game2`
(lines 669-818), emitting the frame's event trace in program order. -/
def frameStep (env : Env) (st : GState) : GState × Outcome × List Ev :=
  let r1 := playerMovePhase env st
  let r2 := playerFirePhase env r1.1
  let r3 := enemyPhase env r2.1 0
  let r4 := pbPhase r3.1
  let r5 := ebPhase r4.1
  let r6 := collisionPhase r5.1
  let r7 := hudPhase env r6.1
  let r8 := wavePhase env r7.1 r3.2.1
  let r9 := playerDrawPhase r8.1
  (r9.1, sessionOutcome env.backBtn r9.1.isGameOver,
    r1.2 ++ r2.2 ++ r3.2.2 ++ r4.2 ++ r5.2 ++ r6.2 ++ r7.2 ++ r8.2.2 ++ r9.2 ++ [Ev.exitCheck])

/-! ## Helper lemmas -/

/-- Default bullet used for out-of-range `getD` reads (inactive). -/
def dB : Bullet := { x := 0, y := 0, vy := 0, active := false }

/-- Default enemy used for out-of-range `getD` reads (inactive). -/
def dE : Enemy := { x := 0, y := 0, speed := 0, active := false, nextFireAt := 0, lane := 0 }

/-- Default bullet/cache pair. -/
def dBP : Bullet × Pos := (dB, (-100, -100))

/-- Well-formed session state: the pools and their caches have the fixed
capacities of `game2` (4 enemies, 6 player bullets, 10 enemy bullets). -/
def WF (st : GState) : Prop :=
  st.enemies.length = 4 ∧ st.pb.length = 6 ∧ st.eb.length = 10 ∧
  st.prevE.length = 4 ∧ st.prevPB.length = 6 ∧ st.prevEB.length = 10

instance (st : GState) : Decidable (WF st) := by unfold WF; infer_instance

def countActiveB (l : List Bullet) : Nat := (l.filter (fun b => b.active)).length

def countActiveE (l : List Enemy) : Nat := (l.filter (fun e => e.active)).length

theorem countActiveB_le (l : List Bullet) : countActiveB l ≤ l.length :=
  List.length_filter_le _ l

theorem countActiveE_le (l : List Enemy) : countActiveE l ≤ l.length :=
  List.length_filter_le _ l

theorem findIdxP_some_lt {p : α → Bool} :
    ∀ {l : List α} {i}, findIdxP p l = some i → i < l.length := by
  intro l
  induction l with
  | nil => intro i h; simp [findIdxP] at h
  | cons a rest ih =>
    intro i h
    simp only [findIdxP] at h
    split at h
    · cases h; simp
    · cases hr : findIdxP p rest with
      | none => rw [hr] at h; simp at h
      | some j =>
        rw [hr] at h
        simp at h
        cases h
        have := ih hr
        simp only [List.length_cons]
        omega

theorem findIdxP_some_getD {p : α → Bool} (d : α) :
    ∀ {l : List α} {i}, findIdxP p l = some i → p (l.getD i d) = true := by
  intro l
  induction l with
  | nil => intro i h; simp [findIdxP] at h
  | cons a rest ih =>
    intro i h
    simp only [findIdxP] at h
    split at h
    · next hp => cases h; simpa using hp
    · cases hr : findIdxP p rest with
      | none => rw [hr] at h; simp at h
      | some j =>
        rw [hr] at h
        simp at h
        cases h
        simpa using ih hr

theorem findIdxP_none {p : α → Bool} :
    ∀ {l : List α}, findIdxP p l = none → ∀ a ∈ l, p a = false := by
  intro l
  induction l with
  | nil => intro _ a ha; simp at ha
  | cons b rest ih =>
    intro h a ha
    simp only [findIdxP] at h
    split at h
    · simp at h
    · next hp =>
      rcases List.mem_cons.1 ha with rfl | hmem
      · simpa using hp
      · exact ih (by simpa using h) a hmem

theorem findIdxP_none_of_all {p : α → Bool} :
    ∀ {l : List α}, (∀ a ∈ l, p a = false) → findIdxP p l = none := by
  intro l
  induction l with
  | nil => intro _; rfl
  | cons b rest ih =>
    intro h
    simp only [findIdxP]
    rw [if_neg (by simp [h b (by simp)]), ih (fun a ha => h a (List.mem_cons_of_mem _ ha))]
    rfl

theorem getD_set_ne (l : List α) (i j : Nat) (a d : α) (h : j ≠ i) :
    (l.set i a).getD j d = l.getD j d := by
  simp [List.getD, List.getElem?_set_ne (by omega : i ≠ j)]

theorem getD_set_self (l : List α) (i : Nat) (a d : α) (h : i < l.length) :
    (l.set i a).getD i d = a := by
  simp [List.getD, List.getElem?_set_self', List.getElem?_eq_getElem h]

theorem getD_mem (l : List α) (i : Nat) (d : α) (h : i < l.length) : l.getD i d ∈ l := by
  rw [List.getD_eq_getElem l d h]
  exact List.getElem_mem h

/-- Every event of `emitErase` is the erase it was asked to emit. -/
theorem mem_emitErase {mk : Int → Int → Int → Int → Ev} {x y w h : Int} {ev : Ev}
    (hm : ev ∈ emitErase mk x y w h) : ev = mk x y w h := by
  unfold emitErase at hm
  split at hm
  · simpa using hm
  · simp at hm

/-! ## Pool lemmas: fire and spawn never overwrite, full pool is a no-op -/

theorem fireEnemyBullet_eb_length (e : Enemy) (diff : ℚ) (s : EnemyPassSt) :
    (fireEnemyBullet e diff s).eb.length = s.eb.length := by
  unfold fireEnemyBullet
  cases h : findIdxP (fun b => !b.active) s.eb with
  | none => rfl
  | some bi => simp

theorem fireEnemyBullet_prevEB_length (e : Enemy) (diff : ℚ) (s : EnemyPassSt) :
    (fireEnemyBullet e diff s).prevEB.length = s.prevEB.length := by
  unfold fireEnemyBullet
  cases h : findIdxP (fun b => !b.active) s.eb with
  | none => rfl
  | some bi => simp

theorem fireEnemyBullet_full_noop (e : Enemy) (diff : ℚ) (s : EnemyPassSt)
    (h : ∀ b ∈ s.eb, b.active = true) : (fireEnemyBullet e diff s).eb = s.eb := by
  unfold fireEnemyBullet
  rw [findIdxP_none_of_all (fun b hb => by simp [h b hb])]

theorem fireEnemyBullet_active_preserved (e : Enemy) (diff : ℚ) (s : EnemyPassSt)
    (i : Nat) (h : (s.eb.getD i dB).active = true) :
    (fireEnemyBullet e diff s).eb.getD i dB = s.eb.getD i dB := by
  unfold fireEnemyBullet
  cases hf : findIdxP (fun b => !b.active) s.eb with
  | none => rfl
  | some bi =>
    have hbi := findIdxP_some_getD dB hf
    simp only [Bool.not_eq_eq_eq_not, Bool.not_true] at hbi
    have : i ≠ bi := fun hh => by rw [hh] at h; rw [h] at hbi; cases hbi
    simpa using getD_set_ne s.eb bi i _ dB this

theorem playerFirePhase_pb_length (env : Env) (st : GState) :
    (playerFirePhase env st).1.pb.length = st.pb.length := by
  unfold playerFirePhase
  split
  · cases h : findIdxP (fun b => !b.active) st.pb with
    | none => rfl
    | some bi => simp
  · rfl

theorem playerFirePhase_full_noop (env : Env) (st : GState)
    (h : ∀ b ∈ st.pb, b.active = true) : (playerFirePhase env st).1.pb = st.pb := by
  unfold playerFirePhase
  split
  · rw [findIdxP_none_of_all (fun b hb => by simp [h b hb])]
  · rfl

theorem playerFirePhase_active_preserved (env : Env) (st : GState)
    (i : Nat) (h : (st.pb.getD i dB).active = true) :
    (playerFirePhase env st).1.pb.getD i dB = st.pb.getD i dB := by
  unfold playerFirePhase
  split
  · cases hf : findIdxP (fun b => !b.active) st.pb with
    | none => rfl
    | some bi =>
      have hbi := findIdxP_some_getD dB hf
      simp only [Bool.not_eq_eq_eq_not, Bool.not_true] at hbi
      have : i ≠ bi := fun hh => by rw [hh] at h; rw [h] at hbi; cases hbi
      simpa using getD_set_ne st.pb bi i _ dB this
  · rfl

/-! ## Spawn Director lemmas -/

theorem swapL_mem (l : List Nat) (i j : Nat) : ∀ x ∈ swapL l i j, x ∈ l := by
  unfold swapL
  split
  · next hij =>
    intro x hx
    rcases List.mem_or_eq_of_mem_set hx with hx1 | rfl
    · rcases List.mem_or_eq_of_mem_set hx1 with hx2 | rfl
      · exact hx2
      · exact getD_mem _ _ _ hij.2
    · exact getD_mem _ _ _ hij.1
  · intro x hx
    exact hx

theorem shuffleAux_mem (rnd : Nat → Nat) :
    ∀ (i k : Nat) (l : List Nat), ∀ x ∈ (shuffleAux rnd k l i).1, x ∈ l := by
  intro i
  induction i with
  | zero => intro k l x hx; exact hx
  | succ n ih =>
    intro k l x hx
    exact swapL_mem _ _ _ x (ih (k + 1) (swapL l (n + 1) (rnd k % (n + 2))) x hx)

theorem spawnLoop_spec (now : Nat) (diff : ℚ) (rnd : Nat → Nat) :
    ∀ (lanes : List Nat) (k spawned : Nat) (ens : List Enemy),
      (spawnLoop now diff rnd k spawned lanes ens).1.length = ens.length ∧
      (∀ i, (ens.getD i dE).active = true →
        (spawnLoop now diff rnd k spawned lanes ens).1.getD i dE = ens.getD i dE) ∧
      (∀ i, (ens.getD i dE).active = false →
        ((spawnLoop now diff rnd k spawned lanes ens).1.getD i dE).active = true →
        ((spawnLoop now diff rnd k spawned lanes ens).1.getD i dE).lane ∈ lanes) := by
  intro lanes
  induction lanes with
  | nil =>
    intro k spawned ens
    refine ⟨rfl, fun i _ => rfl, fun i h1 h2 => ?_⟩
    have hr : (spawnLoop now diff rnd k spawned [] ens).1 = ens := rfl
    rw [hr, h1] at h2
    cases h2
  | cons lane rest ih =>
    intro k spawned ens
    rw [spawnLoop]
    split
    · cases hf : findIdxP (fun e => !e.active) ens with
      | none =>
        refine ⟨rfl, fun i _ => rfl, fun i h1 h2 => ?_⟩
        dsimp only at h2
        rw [h1] at h2
        cases h2
      | some idx =>
        have hlt := findIdxP_some_lt hf
        have hinact := findIdxP_some_getD dE hf
        simp only [Bool.not_eq_eq_eq_not, Bool.not_true] at hinact
        dsimp only
        set en : Enemy :=
          { x := laneX lane
            y := -(mkRat (spawned * 28 + 8) 1)
            speed := qAdd (qAdd BASE_ENEMY_SPEED (mkRat (rnd k % 50) 50))
              (qMul diff (mkRat 3 25))
            active := true
            nextFireAt := now + randIn (rnd (k + 1)) 900 2200
            lane := lane } with hen
        obtain ⟨ihlen, ihact, ihlane⟩ := ih (k + 2) (spawned + 1) (ens.set idx en)
        refine ⟨by rw [ihlen]; simp, ?_, ?_⟩
        · intro i hi
          have hne : i ≠ idx := fun hh => by rw [hh] at hi; rw [hi] at hinact; cases hinact
          have hset : (ens.set idx en).getD i dE = ens.getD i dE := getD_set_ne _ _ _ _ _ hne
          rw [ihact i (by rw [hset]; exact hi), hset]
        · intro i h1 h2
          by_cases hcase : i = idx
          · subst hcase
            have hset : (ens.set i en).getD i dE = en := getD_set_self _ _ _ _ hlt
            have := ihact i (by rw [hset])
            rw [this, hset]
            exact List.mem_cons_self _ _
          · have hset : (ens.set idx en).getD i dE = ens.getD i dE := getD_set_ne _ _ _ _ _ hcase
            have := ihlane i (by rw [hset]; exact h1) h2
            exact List.mem_cons_of_mem _ this
    · refine ⟨rfl, fun i _ => rfl, fun i h1 h2 => ?_⟩
      dsimp only at h2
      rw [h1] at h2
      cases h2

theorem waveGap_lt (rnd : Nat → Nat) (k : Nat) : waveGap rnd k < LANE_COUNT :=
  Nat.mod_lt _ (by decide)

theorem spawnEnemiesWave_spec (now : Nat) (diff : ℚ) (rnd : Nat → Nat) (k : Nat)
    (ens : List Enemy) :
    (spawnEnemiesWave now diff rnd k ens).1.length = ens.length ∧
    (∀ i, (ens.getD i dE).active = true →
      (spawnEnemiesWave now diff rnd k ens).1.getD i dE = ens.getD i dE) ∧
    (∀ i, (ens.getD i dE).active = false →
      ((spawnEnemiesWave now diff rnd k ens).1.getD i dE).active = true →
      ((spawnEnemiesWave now diff rnd k ens).1.getD i dE).lane ≠ waveGap rnd k ∧
      ((spawnEnemiesWave now diff rnd k ens).1.getD i dE).lane < LANE_COUNT) := by
  unfold spawnEnemiesWave
  dsimp only
  obtain ⟨hlen, hact, hlane⟩ := spawnLoop_spec now diff rnd
    (shuffleAux rnd (k + 1)
      ((List.range LANE_COUNT).filter (fun i => i != waveGap rnd k))
      (((List.range LANE_COUNT).filter (fun i => i != waveGap rnd k)).length - 1)).1
    (shuffleAux rnd (k + 1)
      ((List.range LANE_COUNT).filter (fun i => i != waveGap rnd k))
      (((List.range LANE_COUNT).filter (fun i => i != waveGap rnd k)).length - 1)).2
    0 ens
  refine ⟨hlen, hact, fun i h1 h2 => ?_⟩
  have hmem := hlane i h1 h2
  have hav := shuffleAux_mem rnd _ _ _ _ hmem
  have := List.mem_filter.1 hav
  obtain ⟨hrange, hne⟩ := this
  refine ⟨by simpa using hne, by simpa using List.mem_range.1 hrange⟩

/-- **C5**: every `spawnEnemiesWave` call keeps the pool size, never touches
an active slot, and every enemy it activates lies in a road lane different
from the single randomly chosen gap lane of that call (which is a legal
lane index). With the slots fixed and only inactive slots written, the call
activates at most as many enemies as there were free slots. -/
theorem c5_spawn_wave_gap_lane (now : Nat) (diff : ℚ) (rnd : Nat → Nat) (k : Nat)
    (ens : List Enemy) :
    (spawnEnemiesWave now diff rnd k ens).1.length = ens.length ∧
    waveGap rnd k < LANE_COUNT ∧
    (∀ i, (ens.getD i dE).active = true →
      (spawnEnemiesWave now diff rnd k ens).1.getD i dE = ens.getD i dE) ∧
    (∀ i, (ens.getD i dE).active = false →
      ((spawnEnemiesWave now diff rnd k ens).1.getD i dE).active = true →
      ((spawnEnemiesWave now diff rnd k ens).1.getD i dE).lane ≠ waveGap rnd k ∧
      ((spawnEnemiesWave now diff rnd k ens).1.getD i dE).lane < LANE_COUNT) ∧
    countActiveE (spawnEnemiesWave now diff rnd k ens).1 ≤ ens.length := by
  obtain ⟨h1, h2, h3⟩ := spawnEnemiesWave_spec now diff rnd k ens
  exact ⟨h1, waveGap_lt rnd k, h2, h3, h1 ▸ countActiveE_le _⟩

/-- Witness for C5: a pool with slot 0 active and slots 1-3 free, a
constant random oracle; the active slot is untouched and a slot the wave
activated avoids the gap lane. -/
theorem c5_spawn_wave_gap_lane_witness :
    ((spawnEnemiesWave 1000 1 (fun _ => 0) 0
        [{ dE with active := true }, dE, dE, dE]).1.getD 0 dE =
      { dE with active := true }) ∧
    waveGap (fun _ => 0) 0 < LANE_COUNT := by
  constructor
  · exact (c5_spawn_wave_gap_lane 1000 1 (fun _ => 0) 0
      [{ dE with active := true }, dE, dE, dE]).2.2.1 0 (by decide)
  · exact (c5_spawn_wave_gap_lane 1000 1 (fun _ => 0) 0
      [{ dE with active := true }, dE, dE, dE]).2.1

/-! ## Length preservation through the frame -/

theorem enemySlotStep_lengths (now : Nat) (diff : ℚ) (rnd : Nat → Nat) (idx : Nat)
    (e : Enemy) (prev : Pos) (s : EnemyPassSt) :
    (enemySlotStep now diff rnd idx e prev s).2.2.eb.length = s.eb.length ∧
    (enemySlotStep now diff rnd idx e prev s).2.2.prevEB.length = s.prevEB.length := by
  unfold enemySlotStep
  split
  · dsimp only
    split
    · exact ⟨rfl, rfl⟩
    · split
      · exact ⟨by simpa using fireEnemyBullet_eb_length _ diff _,
          by simpa using fireEnemyBullet_prevEB_length _ diff _⟩
      · exact ⟨rfl, rfl⟩
  · exact ⟨rfl, rfl⟩

theorem enemyPassGo_lengths (now : Nat) (diff : ℚ) (rnd : Nat → Nat) :
    ∀ (idx : Nat) (eps : List (Enemy × Pos)) (s : EnemyPassSt),
      (enemyPassGo now diff rnd idx eps s).1.length = eps.length ∧
      (enemyPassGo now diff rnd idx eps s).2.eb.length = s.eb.length ∧
      (enemyPassGo now diff rnd idx eps s).2.prevEB.length = s.prevEB.length := by
  intro idx eps
  induction eps generalizing idx with
  | nil => intro s; exact ⟨rfl, rfl, rfl⟩
  | cons ep rest ih =>
    intro s
    obtain ⟨h1, h2⟩ := enemySlotStep_lengths now diff rnd idx ep.1 ep.2 s
    obtain ⟨g1, g2, g3⟩ := ih (idx + 1) (enemySlotStep now diff rnd idx ep.1 ep.2 s).2.2
    rw [enemyPassGo]
    exact ⟨by simpa using g1, by rw [g2, h1], by rw [g3, h2]⟩

theorem bulletPassGo_length (step : Nat → Bullet → Pos → Bullet × Pos × List Ev) :
    ∀ (idx : Nat) (l : List (Bullet × Pos)),
      (bulletPassGo step idx l).1.length = l.length := by
  intro idx l
  induction l generalizing idx with
  | nil => rfl
  | cons bp rest ih =>
    rw [bulletPassGo]
    simpa using ih (idx + 1)

theorem pbScanEnemies_length (bi : Nat) (bx byv : Int) (prevB : Pos) :
    ∀ (ei : Nat) (ens : List Enemy),
      (pbScanEnemies bi bx byv prevB ei ens).1.length = ens.length := by
  intro ei ens
  induction ens generalizing ei with
  | nil => rfl
  | cons e rest ih =>
    rw [pbScanEnemies]
    split
    · split
      · simpa using ih (ei + 1)
      · simpa using ih (ei + 1)
    · simpa using ih (ei + 1)

theorem pbCollisionPass_lengths :
    ∀ (bi : Nat) (l : List (Bullet × Pos)) (ens : List Enemy),
      (pbCollisionPass bi l ens).1.length = l.length ∧
      (pbCollisionPass bi l ens).2.1.length = ens.length := by
  intro bi l
  induction l generalizing bi with
  | nil => intro ens; exact ⟨rfl, rfl⟩
  | cons bp rest ih =>
    intro ens
    rw [pbCollisionPass]
    split
    · obtain ⟨g1, g2⟩ := ih (bi + 1)
        (pbScanEnemies bi (truncQ bp.1.x) (truncQ bp.1.y) bp.2 0 ens).1
      refine ⟨by simpa using g1, ?_⟩
      rw [g2, pbScanEnemies_length]
    · obtain ⟨g1, g2⟩ := ih (bi + 1) ens
      exact ⟨by simpa using g1, g2⟩

theorem ebPlayerScan_length (px py : Int) :
    ∀ (bi : Nat) (l : List (Bullet × Pos)),
      (ebPlayerScan px py bi l).1.length = l.length := by
  intro bi l
  induction l generalizing bi with
  | nil => rfl
  | cons bp rest ih =>
    rw [ebPlayerScan]
    split
    · split
      · simp
      · simpa using ih (bi + 1)
    · simpa using ih (bi + 1)

theorem frameStep_WF (env : Env) (st : GState) (h : WF st) : WF (frameStep env st).1 := by
  obtain ⟨he, hpb, heb, hpe, hppb, hpeb⟩ := h
  unfold frameStep
  dsimp only
  -- phase 1: player movement changes no pool
  set st1 := (playerMovePhase env st).1 with hst1
  have h1 : st1.enemies = st.enemies ∧ st1.pb = st.pb ∧ st1.eb = st.eb ∧
      st1.prevE = st.prevE ∧ st1.prevPB = st.prevPB ∧ st1.prevEB = st.prevEB := by
    rw [hst1]; unfold playerMovePhase; exact ⟨rfl, rfl, rfl, rfl, rfl, rfl⟩
  -- phase 2: player fire sets one pb slot
  set st2 := (playerFirePhase env st1).1 with hst2
  have h2 : st2.enemies = st1.enemies ∧ st2.pb.length = st1.pb.length ∧ st2.eb = st1.eb ∧
      st2.prevE = st1.prevE ∧ st2.prevPB.length = st1.prevPB.length ∧
      st2.prevEB = st1.prevEB := by
    rw [hst2]; unfold playerFirePhase
    split
    · cases hf : findIdxP (fun b => !b.active) st1.pb with
      | none => exact ⟨rfl, rfl, rfl, rfl, rfl, rfl⟩
      | some bi => exact ⟨rfl, by simp, rfl, rfl, by simp, rfl⟩
    · exact ⟨rfl, rfl, rfl, rfl, rfl, rfl⟩
  -- phase 3: enemy pass
  set r3 := enemyPhase env st2 0 with hr3
  have gzip : (st2.enemies.zip st2.prevE).length = 4 := by
    rw [List.length_zip, h2.1, h1.1, h2.2.2.2.1, h1.2.2.2.1, he, hpe]; simp
  obtain ⟨e1, e2, e3⟩ := enemyPassGo_lengths env.now env.difficulty env.rnd 0
    (st2.enemies.zip st2.prevE) { eb := st2.eb, prevEB := st2.prevEB, k := 0, evs := [] }
  have h3 : r3.1.enemies.length = 4 ∧ r3.1.pb = st2.pb ∧ r3.1.eb.length = 10 ∧
      r3.1.prevE.length = 4 ∧ r3.1.prevPB = st2.prevPB ∧ r3.1.prevEB.length = 10 := by
    rw [hr3]; unfold enemyPhase
    refine ⟨?_, rfl, ?_, ?_, rfl, ?_⟩
    · simpa [gzip] using e1
    · simpa [h2.2.2.1, h1.2.2.1, heb] using e2
    · simpa [gzip] using e1
    · simpa [h2.2.2.2.2.2, h1.2.2.2.2.2, hpeb] using e3
  -- phase 4: pb movement
  set st4 := (pbPhase r3.1).1 with hst4
  have gzip4 : (r3.1.pb.zip r3.1.prevPB).length = 6 := by
    rw [List.length_zip, h3.2.1, h3.2.2.2.2.1, h2.2.1, h1.2.1, hpb,
      h2.2.2.2.2.1, h1.2.2.2.2.1, hppb]
    simp
  have h4 : st4.enemies = r3.1.enemies ∧ st4.pb.length = 6 ∧ st4.eb = r3.1.eb ∧
      st4.prevE = r3.1.prevE ∧ st4.prevPB.length = 6 ∧ st4.prevEB = r3.1.prevEB := by
    rw [hst4]; unfold pbPhase
    refine ⟨rfl, ?_, rfl, rfl, ?_, rfl⟩
    · simpa [gzip4] using bulletPassGo_length pbSlotStep 0 (r3.1.pb.zip r3.1.prevPB)
    · simpa [gzip4] using bulletPassGo_length pbSlotStep 0 (r3.1.pb.zip r3.1.prevPB)
  -- phase 5: eb movement
  set st5 := (ebPhase st4).1 with hst5
  have gzip5 : (st4.eb.zip st4.prevEB).length = 10 := by
    rw [List.length_zip, h4.2.2.1, h4.2.2.2.2.2, h3.2.2.1, h3.2.2.2.2.2]; simp
  have h5 : st5.enemies = st4.enemies ∧ st5.pb = st4.pb ∧ st5.eb.length = 10 ∧
      st5.prevE = st4.prevE ∧ st5.prevPB = st4.prevPB ∧ st5.prevEB.length = 10 := by
    rw [hst5]; unfold ebPhase
    refine ⟨rfl, rfl, ?_, rfl, rfl, ?_⟩
    · simpa [gzip5] using bulletPassGo_length ebSlotStep 0 (st4.eb.zip st4.prevEB)
    · simpa [gzip5] using bulletPassGo_length ebSlotStep 0 (st4.eb.zip st4.prevEB)
  -- phase 6: collisions
  set st6 := (collisionPhase st5).1 with hst6
  have gzip6 : (st5.pb.zip st5.prevPB).length = 6 := by
    rw [List.length_zip, h5.2.1, h5.2.2.2.2.1, h4.2.1, h4.2.2.2.2.1]; simp
  obtain ⟨c1, c2⟩ := pbCollisionPass_lengths 0 (st5.pb.zip st5.prevPB) st5.enemies
  have h6 : st6.enemies.length = 4 ∧ st6.pb.length = 6 ∧ st6.eb.length = 10 ∧
      st6.prevE.length = 4 ∧ st6.prevPB.length = 6 ∧ st6.prevEB.length = 10 := by
    rw [hst6]; unfold collisionPhase
    dsimp only
    have gzip7 : ((st5.eb).zip (st5.prevEB)).length = 10 := by
      rw [List.length_zip, h5.2.2.1, h5.2.2.2.2.2]; simp
    refine ⟨?_, ?_, ?_, ?_, ?_, ?_⟩
    · rw [c2, h5.1, h4.1, h3.1]
    · simpa [gzip6] using c1
    · simpa [gzip7] using ebPlayerScan_length (truncQ st5.playerX) playerYpos 0
        (st5.eb.zip st5.prevEB)
    · rw [h5.2.2.2.1, h4.2.2.2.1, h3.2.2.2.1]
    · simpa [gzip6] using c1
    · simpa [gzip7] using ebPlayerScan_length (truncQ st5.playerX) playerYpos 0
        (st5.eb.zip st5.prevEB)
  -- phase 7: hud (no pools)
  set st7 := (hudPhase env st6).1 with hst7
  have h7 : st7.enemies = st6.enemies ∧ st7.pb = st6.pb ∧ st7.eb = st6.eb ∧
      st7.prevE = st6.prevE ∧ st7.prevPB = st6.prevPB ∧ st7.prevEB = st6.prevEB := by
    rw [hst7]; unfold hudPhase
    split
    · exact ⟨rfl, rfl, rfl, rfl, rfl, rfl⟩
    · exact ⟨rfl, rfl, rfl, rfl, rfl, rfl⟩
  -- phase 8: wave
  set st8 := (wavePhase env st7 (enemyPhase env st2 0).2.1).1 with hst8
  have h8 : st8.enemies.length = st7.enemies.length ∧ st8.pb = st7.pb ∧ st8.eb = st7.eb ∧
      st8.prevE = st7.prevE ∧ st8.prevPB = st7.prevPB ∧ st8.prevEB = st7.prevEB := by
    rw [hst8]; unfold wavePhase
    split
    · exact ⟨(spawnEnemiesWave_spec _ _ _ _ _).1, rfl, rfl, rfl, rfl, rfl⟩
    · exact ⟨rfl, rfl, rfl, rfl, rfl, rfl⟩
  -- phase 9: player draw (no pools)
  refine ⟨?_, ?_, ?_, ?_, ?_, ?_⟩ <;>
    simp only [playerDrawPhase] <;>
    simp [h8.1, h8.2.1, h8.2.2.1, h8.2.2.2.1, h8.2.2.2.2.1, h8.2.2.2.2.2,
      h7.1, h7.2.1, h7.2.2.1, h7.2.2.2.1, h7.2.2.2.2.1, h7.2.2.2.2.2,
      h6.1, h6.2.1, h6.2.2.1, h6.2.2.2.1, h6.2.2.2.2.1, h6.2.2.2.2.2]

/-! ## C2: pool invariants -/

theorem spawnLoop_full_noop (now : Nat) (diff : ℚ) (rnd : Nat → Nat)
    (lanes : List Nat) (k spawned : Nat) (ens : List Enemy)
    (h : ∀ a ∈ ens, a.active = true) :
    (spawnLoop now diff rnd k spawned lanes ens).1 = ens := by
  cases lanes with
  | nil => rfl
  | cons lane rest =>
    rw [spawnLoop]
    split
    · rw [findIdxP_none_of_all (fun a ha => by simp [h a ha])]
    · rfl

theorem spawnEnemiesWave_full_noop (now : Nat) (diff : ℚ) (rnd : Nat → Nat) (k : Nat)
    (ens : List Enemy) (h : ∀ a ∈ ens, a.active = true) :
    (spawnEnemiesWave now diff rnd k ens).1 = ens := by
  unfold spawnEnemiesWave
  exact spawnLoop_full_noop _ _ _ _ _ _ _ h

/-- **C2**: the pools keep their fixed capacities (4 enemies, 6 player
bullets, 10 enemy bullets) across every frame, so the number of active
slots can never exceed them; and each of the three allocation sites
(player fire, enemy fire, wave spawn) is a silent no-op when every slot of
its pool is active, and never overwrites an active slot. -/
theorem c2_pool_invariants :
    (∀ env st, WF st → WF (frameStep env st).1 ∧
      countActiveE (frameStep env st).1.enemies ≤ MAX_ENEMIES ∧
      countActiveB (frameStep env st).1.pb ≤ MAX_PLAYER_BULLETS ∧
      countActiveB (frameStep env st).1.eb ≤ MAX_ENEMY_BULLETS) ∧
    (∀ env st, (∀ b ∈ st.pb, b.active = true) → (playerFirePhase env st).1.pb = st.pb) ∧
    (∀ env st i, (st.pb.getD i dB).active = true →
      (playerFirePhase env st).1.pb.getD i dB = st.pb.getD i dB) ∧
    (∀ e diff s, (∀ b ∈ s.eb, b.active = true) → (fireEnemyBullet e diff s).eb = s.eb) ∧
    (∀ e diff s i, (s.eb.getD i dB).active = true →
      (fireEnemyBullet e diff s).eb.getD i dB = s.eb.getD i dB) ∧
    (∀ now diff rnd k ens, (∀ a ∈ ens, a.active = true) →
      (spawnEnemiesWave now diff rnd k ens).1 = ens) ∧
    (∀ now diff rnd k ens i, (ens.getD i dE).active = true →
      (spawnEnemiesWave now diff rnd k ens).1.getD i dE = ens.getD i dE) := by
  refine ⟨?_, ?_, ?_, ?_, ?_, ?_, ?_⟩
  · intro env st h
    have hwf := frameStep_WF env st h
    refine ⟨hwf, ?_, ?_, ?_⟩
    · exact le_of_le_of_eq (countActiveE_le _) hwf.1
    · exact le_of_le_of_eq (countActiveB_le _) hwf.2.1
    · exact le_of_le_of_eq (countActiveB_le _) hwf.2.2.1
  · exact fun env st h => playerFirePhase_full_noop env st h
  · exact fun env st i h => playerFirePhase_active_preserved env st i h
  · exact fun e diff s h => fireEnemyBullet_full_noop e diff s h
  · exact fun e diff s i h => fireEnemyBullet_active_preserved e diff s i h
  · exact fun now diff rnd k ens h => spawnEnemiesWave_full_noop now diff rnd k ens h
  · exact fun now diff rnd k ens i h => (spawnEnemiesWave_spec now diff rnd k ens).2.1 i h

/-- Witness for C2: a session state of the right capacities with one
active bullet in each pool; the frame keeps the capacities, a full-pool
fire is dropped, and occupied slots are untouched. -/
theorem c2_pool_invariants_witness :
    (WF (frameStep
        { n := 0, fireBtn := false, backBtn := false, now := 0, difficulty := 1,
          rnd := fun _ => 0 }
        { playerX := 50, playerVel := 0, lastN := 0, lastPlayerFire := 0,
          enemies := [dE, dE, dE, dE],
          pb := [{ dB with active := true }, dB, dB, dB, dB, dB],
          eb := [dB, dB, dB, dB, dB, dB, dB, dB, dB, dB],
          prevPlayer := (50, 132), prevE := [(-100, -100), (-100, -100), (-100, -100), (-100, -100)],
          prevPB := [(-100, -100), (-100, -100), (-100, -100), (-100, -100), (-100, -100), (-100, -100)],
          prevEB := [(-100, -100), (-100, -100), (-100, -100), (-100, -100), (-100, -100),
            (-100, -100), (-100, -100), (-100, -100), (-100, -100), (-100, -100)],
          score := 0, lastScoreTick := 0, isGameOver := false }).1) ∧
    ((fireEnemyBullet dE 1
        { eb := [{ dB with active := true }], prevEB := [(0, 0)], k := 0, evs := [] }).eb =
      [{ dB with active := true }]) := by
  constructor
  · exact ((c2_pool_invariants.1 _ _ (by decide))).1
  · exact c2_pool_invariants.2.2.2.1 dE 1
      { eb := [{ dB with active := true }], prevEB := [(0, 0)], k := 0, evs := [] }
      (by decide)

/-! ## Collision-pass characterization -/

theorem exists_getD_cons_iff (P : α → Prop) (a d : α) (l : List α) :
    (∃ i, P ((a :: l).getD i d)) ↔ (P a ∨ ∃ i, P (l.getD i d)) := by
  constructor
  · rintro ⟨i, hi⟩
    cases i with
    | zero => exact Or.inl (by rw [List.getD_cons_zero] at hi; exact hi)
    | succ n => exact Or.inr ⟨n, by rw [List.getD_cons_succ] at hi; exact hi⟩
  · rintro (h | ⟨i, hi⟩)
    · exact ⟨0, by rw [List.getD_cons_zero]; exact h⟩
    · exact ⟨i + 1, by rw [List.getD_cons_succ]; exact hi⟩

/-- Value of each enemy slot after one bullet's scan: deactivated exactly
when it was active and overlapping, otherwise untouched. -/
theorem pbScanEnemies_getD (bi : Nat) (bx byv : Int) (prevB : Pos) :
    ∀ (ei : Nat) (ens : List Enemy) (j : Nat),
      (pbScanEnemies bi bx byv prevB ei ens).1.getD j dE =
        (if (ens.getD j dE).active = true ∧
            hitTest bx byv (truncQ (ens.getD j dE).x) (truncQ (ens.getD j dE).y) = true
         then { ens.getD j dE with active := false } else ens.getD j dE) := by
  intro ei ens
  induction ens generalizing ei with
  | nil =>
    intro j
    have h : ¬((([] : List Enemy).getD j dE).active = true ∧
        hitTest bx byv (truncQ (([] : List Enemy).getD j dE).x)
          (truncQ (([] : List Enemy).getD j dE).y) = true) := by
      rintro ⟨h1, _⟩
      rw [show (([] : List Enemy).getD j dE) = dE from rfl] at h1
      cases h1
    rw [if_neg h]
    rfl
  | cons e rest ih =>
    intro j
    rw [pbScanEnemies]
    split
    · next hact =>
      split
      · next hhit =>
        dsimp only
        cases j with
        | zero =>
          simp only [List.getD_cons_zero]
          rw [if_pos ⟨hact, hhit⟩]
        | succ n =>
          simp only [List.getD_cons_succ]
          exact ih (ei + 1) n
      · next hhit =>
        dsimp only
        cases j with
        | zero =>
          simp only [List.getD_cons_zero]
          rw [if_neg (by rintro ⟨_, hh⟩; exact hhit hh)]
        | succ n =>
          simp only [List.getD_cons_succ]
          exact ih (ei + 1) n
    · next hact =>
      dsimp only
      cases j with
      | zero =>
        simp only [List.getD_cons_zero]
        rw [if_neg (by rintro ⟨h1, _⟩; exact hact h1)]
      | succ n =>
        simp only [List.getD_cons_succ]
        exact ih (ei + 1) n

/-- The hit flag of one bullet's scan: raised exactly when some enemy slot
was active and overlapping. -/
theorem pbScanEnemies_flag (bi : Nat) (bx byv : Int) (prevB : Pos) :
    ∀ (ei : Nat) (ens : List Enemy),
      (pbScanEnemies bi bx byv prevB ei ens).2.1 = true ↔
        (∃ j, (ens.getD j dE).active = true ∧
          hitTest bx byv (truncQ (ens.getD j dE).x) (truncQ (ens.getD j dE).y) = true) := by
  intro ei ens
  induction ens generalizing ei with
  | nil =>
    constructor
    · intro h; simp [pbScanEnemies] at h
    · rintro ⟨j, hj, _⟩
      rw [show ([] : List Enemy).getD j dE = dE from rfl] at hj
      cases hj
  | cons e rest ih =>
    rw [exists_getD_cons_iff
      (fun x => x.active = true ∧ hitTest bx byv (truncQ x.x) (truncQ x.y) = true) e dE rest]
    rw [pbScanEnemies]
    split
    · next hact =>
      split
      · next hhit =>
        dsimp only
        constructor
        · intro _; exact Or.inl ⟨hact, hhit⟩
        · intro _; rfl
      · next hhit =>
        dsimp only
        rw [ih (ei + 1)]
        constructor
        · intro h; exact Or.inr h
        · rintro (⟨_, hh⟩ | h)
          · exact absurd hh hhit
          · exact h
    · next hact =>
      dsimp only
      rw [ih (ei + 1)]
      constructor
      · intro h; exact Or.inr h
      · rintro (⟨ha, _⟩ | h)
        · exact absurd ha hact
        · exact h

/-- An enemy slot that no active bullet overlaps is untouched by the whole
player-bullet collision pass. -/
theorem pbCollisionPass_enemy_untouched :
    ∀ (bi : Nat) (l : List (Bullet × Pos)) (ens : List Enemy) (j : Nat),
      (¬ ∃ i, ((l.getD i dBP).1.active = true ∧
        hitTest (truncQ (l.getD i dBP).1.x) (truncQ (l.getD i dBP).1.y)
          (truncQ (ens.getD j dE).x) (truncQ (ens.getD j dE).y) = true)) →
      (pbCollisionPass bi l ens).2.1.getD j dE = ens.getD j dE := by
  intro bi l
  induction l generalizing bi with
  | nil => intro ens j _; rfl
  | cons bp rest ih =>
    intro ens j hno
    have hcons := exists_getD_cons_iff
      (fun x : Bullet × Pos => x.1.active = true ∧
        hitTest (truncQ x.1.x) (truncQ x.1.y)
          (truncQ (ens.getD j dE).x) (truncQ (ens.getD j dE).y) = true) bp dBP rest
    rw [pbCollisionPass]
    split
    · next hact =>
      dsimp only
      have hnobp : ¬ hitTest (truncQ bp.1.x) (truncQ bp.1.y)
          (truncQ (ens.getD j dE).x) (truncQ (ens.getD j dE).y) = true := by
        intro hh
        exact hno (hcons.2 (Or.inl ⟨hact, hh⟩))
      have hscan : (pbScanEnemies bi (truncQ bp.1.x) (truncQ bp.1.y) bp.2 0 ens).1.getD j dE =
          ens.getD j dE := by
        rw [pbScanEnemies_getD]
        rw [if_neg (by rintro ⟨_, hh⟩; exact hnobp hh)]
      rw [ih (bi + 1) _ j (by rw [hscan]; intro hex; exact hno (hcons.2 (Or.inr hex))), hscan]
    · next hact =>
      dsimp only
      exact ih (bi + 1) ens j (fun hex => hno (hcons.2 (Or.inr hex)))

/-- An enemy slot ends the player-bullet collision pass inactive exactly
when it was already inactive or some bullet that was active at the start
of the pass overlaps it. -/
theorem pbCollisionPass_enemy_inactive_iff :
    ∀ (bi : Nat) (l : List (Bullet × Pos)) (ens : List Enemy) (j : Nat),
      (((pbCollisionPass bi l ens).2.1.getD j dE).active = false ↔
        ((ens.getD j dE).active = false ∨
          ∃ i, ((l.getD i dBP).1.active = true ∧
            hitTest (truncQ (l.getD i dBP).1.x) (truncQ (l.getD i dBP).1.y)
              (truncQ (ens.getD j dE).x) (truncQ (ens.getD j dE).y) = true))) := by
  intro bi l
  induction l generalizing bi with
  | nil =>
    intro ens j
    constructor
    · intro h; exact Or.inl h
    · rintro (h | ⟨i, hi, _⟩)
      · exact h
      · rw [show (([] : List (Bullet × Pos)).getD i dBP) = dBP from rfl] at hi
        cases hi
  | cons bp rest ih =>
    intro ens j
    have hcons := exists_getD_cons_iff
      (fun x : Bullet × Pos => x.1.active = true ∧
        hitTest (truncQ x.1.x) (truncQ x.1.y)
          (truncQ (ens.getD j dE).x) (truncQ (ens.getD j dE).y) = true) bp dBP rest
    rw [pbCollisionPass]
    split
    · next hact =>
      dsimp only
      by_cases hEact : (ens.getD j dE).active = true
      · by_cases hbphit : hitTest (truncQ bp.1.x) (truncQ bp.1.y)
            (truncQ (ens.getD j dE).x) (truncQ (ens.getD j dE).y) = true
        · -- this bullet deactivates the enemy; both sides true
          have hscan : (pbScanEnemies bi (truncQ bp.1.x) (truncQ bp.1.y) bp.2 0 ens).1.getD j dE =
              { ens.getD j dE with active := false } := by
            rw [pbScanEnemies_getD, if_pos ⟨hEact, hbphit⟩]
          have hiff := ih (bi + 1) (pbScanEnemies bi (truncQ bp.1.x) (truncQ bp.1.y) bp.2 0 ens).1 j
          rw [hscan] at hiff
          constructor
          · intro _; exact Or.inr (hcons.2 (Or.inl ⟨hact, hbphit⟩))
          · intro _; exact hiff.2 (Or.inl rfl)
        · have hscan : (pbScanEnemies bi (truncQ bp.1.x) (truncQ bp.1.y) bp.2 0 ens).1.getD j dE =
              ens.getD j dE := by
            rw [pbScanEnemies_getD]
            rw [if_neg (by rintro ⟨_, hh⟩; exact hbphit hh)]
          have hiff := ih (bi + 1) (pbScanEnemies bi (truncQ bp.1.x) (truncQ bp.1.y) bp.2 0 ens).1 j
          rw [hscan] at hiff
          rw [hiff]
          constructor
          · rintro (h | hex)
            · exact Or.inl h
            · exact Or.inr (hcons.2 (Or.inr hex))
          · rintro (h | hex)
            · exact Or.inl h
            · rcases hcons.1 hex with ⟨_, hh⟩ | hh
              · exact absurd hh hbphit
              · exact Or.inr hh
      · have hEact' : (ens.getD j dE).active = false := by simpa using hEact
        have hscan : (pbScanEnemies bi (truncQ bp.1.x) (truncQ bp.1.y) bp.2 0 ens).1.getD j dE =
            ens.getD j dE := by
          rw [pbScanEnemies_getD]
          rw [if_neg (by rintro ⟨hh, _⟩; exact hEact hh)]
        have hiff := ih (bi + 1) (pbScanEnemies bi (truncQ bp.1.x) (truncQ bp.1.y) bp.2 0 ens).1 j
        rw [hscan] at hiff
        rw [hiff]
        constructor
        · intro _; exact Or.inl hEact'
        · intro _; exact Or.inl hEact'
    · next hact =>
      dsimp only
      rw [ih (bi + 1) ens j]
      constructor
      · rintro (h | hex)
        · exact Or.inl h
        · exact Or.inr (hcons.2 (Or.inr hex))
      · rintro (h | hex)
        · exact Or.inl h
        · rcases hcons.1 hex with ⟨hh, _⟩ | hh
          · exact absurd hh hact
          · exact Or.inr hh

/-- Forward direction for bullets: a player bullet the pass deactivated was
overlapping some enemy that was active at the start of the pass. -/
theorem pbCollisionPass_bullet_forward :
    ∀ (bi : Nat) (l : List (Bullet × Pos)) (ens : List Enemy) (i : Nat),
      ((pbCollisionPass bi l ens).1.getD i dBP).1.active = false →
      ((l.getD i dBP).1.active = false ∨
        ∃ j, ((ens.getD j dE).active = true ∧
          hitTest (truncQ (l.getD i dBP).1.x) (truncQ (l.getD i dBP).1.y)
            (truncQ (ens.getD j dE).x) (truncQ (ens.getD j dE).y) = true)) := by
  intro bi l
  induction l generalizing bi with
  | nil =>
    intro ens i _
    exact Or.inl rfl
  | cons bp rest ih =>
    intro ens i h
    rw [pbCollisionPass] at h
    split at h
    · next hact =>
      cases i with
      | zero =>
        dsimp only at h
        rw [List.getD_cons_zero] at h
        split at h
        · next hflag =>
          rcases (pbScanEnemies_flag bi (truncQ bp.1.x) (truncQ bp.1.y) bp.2 0 ens).1 hflag
            with ⟨j, hj1, hj2⟩
          rw [List.getD_cons_zero]
          exact Or.inr ⟨j, hj1, hj2⟩
        · rw [hact] at h; cases h
      | succ n =>
        dsimp only at h
        rw [List.getD_cons_succ] at h
        rcases ih (bi + 1) _ n h with hl | ⟨j, hj1, hj2⟩
        · exact Or.inl (by rw [List.getD_cons_succ]; exact hl)
        · rw [pbScanEnemies_getD] at hj1 hj2
          by_cases hc : ((ens.getD j dE).active = true ∧
              hitTest (truncQ bp.1.x) (truncQ bp.1.y)
                (truncQ (ens.getD j dE).x) (truncQ (ens.getD j dE).y) = true)
          · rw [if_pos hc] at hj1
            cases hj1
          · rw [if_neg hc] at hj1 hj2
            rw [List.getD_cons_succ]
            exact Or.inr ⟨j, hj1, hj2⟩
    · next hact =>
      cases i with
      | zero =>
        dsimp only at h
        rw [List.getD_cons_zero] at h
        rw [List.getD_cons_zero]
        exact Or.inl h
      | succ n =>
        dsimp only at h
        rw [List.getD_cons_succ] at h
        rcases ih (bi + 1) ens n h with hl | hj
        · exact Or.inl (by rw [List.getD_cons_succ]; exact hl)
        · rw [List.getD_cons_succ]
          exact Or.inr hj

/-- **C7 (amended)**: in the player-bullet collision pass, an enemy slot is
deactivated exactly when its rectangle overlaps (per the code's ±2/±4
margin) an active bullet; a bullet the pass deactivates overlaps some
enemy that was active at the start of the pass; non-overlapping pairs never
trigger a deactivation (an enemy no active bullet overlaps is untouched);
and for the scenario — enemy at `(40, 50)` of size 28x20 — the bullet at
`(50, 55)` collides while the bullet at `(80, 55)` does not. The clause of
the original claim this drops: a bullet is *not* always deactivated against
every enemy it overlaps — when an earlier bullet of the same frame already
deactivated that enemy, the later overlapping bullet stays active (see the
counterexample). -/
theorem c7_collision_pass (bi : Nat) (l : List (Bullet × Pos)) (ens : List Enemy) (j : Nat) :
    (((pbCollisionPass bi l ens).2.1.getD j dE).active = false ↔
      ((ens.getD j dE).active = false ∨
        ∃ i, ((l.getD i dBP).1.active = true ∧
          hitTest (truncQ (l.getD i dBP).1.x) (truncQ (l.getD i dBP).1.y)
            (truncQ (ens.getD j dE).x) (truncQ (ens.getD j dE).y) = true))) ∧
    ((¬ ∃ i, ((l.getD i dBP).1.active = true ∧
        hitTest (truncQ (l.getD i dBP).1.x) (truncQ (l.getD i dBP).1.y)
          (truncQ (ens.getD j dE).x) (truncQ (ens.getD j dE).y) = true)) →
      (pbCollisionPass bi l ens).2.1.getD j dE = ens.getD j dE) ∧
    (∀ i, ((pbCollisionPass bi l ens).1.getD i dBP).1.active = false →
      ((l.getD i dBP).1.active = false ∨
        ∃ jj, ((ens.getD jj dE).active = true ∧
          hitTest (truncQ (l.getD i dBP).1.x) (truncQ (l.getD i dBP).1.y)
            (truncQ (ens.getD jj dE).x) (truncQ (ens.getD jj dE).y) = true))) ∧
    hitTest 50 55 40 50 = true ∧ hitTest 80 55 40 50 = false :=
  ⟨pbCollisionPass_enemy_inactive_iff bi l ens j,
    fun h => pbCollisionPass_enemy_untouched bi l ens j h,
    fun i h => pbCollisionPass_bullet_forward bi l ens i h,
    by decide, by decide⟩

/-- Witness for C7 at concrete pools: one active bullet at `(50, 55)`
overlapping the single active enemy at `(40, 50)`: the pass deactivates
the enemy, and the scenario evaluations hold. -/
theorem c7_collision_pass_witness :
    (((pbCollisionPass 0 [({ x := 50, y := 55, vy := 0, active := true }, (50, 61))]
        [{ x := 40, y := 50, speed := 0, active := true, nextFireAt := 0, lane := 0 }]).2.1.getD
          0 dE).active = false) ∧
    hitTest 50 55 40 50 = true ∧ hitTest 80 55 40 50 = false := by
  refine ⟨?_, (c7_collision_pass 0 [({ x := 50, y := 55, vy := 0, active := true }, (50, 61))]
    [{ x := 40, y := 50, speed := 0, active := true, nextFireAt := 0, lane := 0 }] 0).2.2.2⟩
  exact (c7_collision_pass 0 [({ x := 50, y := 55, vy := 0, active := true }, (50, 61))]
    [{ x := 40, y := 50, speed := 0, active := true, nextFireAt := 0, lane := 0 }] 0).1.2
    (Or.inr ⟨0, by decide, by decide⟩)

/-- Counterexample to C7 as stated: two active bullets at `(50, 55)` and
`(52, 55)` both overlap the single active enemy at `(40, 50)`; the pass
resolves the first pair, but the second bullet — whose rectangle also
overlaps the enemy at this frame — remains active, so that overlapping
pair is *not* resolved as a hit (not both deactivated). -/
theorem c7_collision_pass_counterexample :
    hitTest 52 55 40 50 = true ∧
    (((pbCollisionPass 0
        [({ x := 50, y := 55, vy := 0, active := true }, (50, 61)),
         ({ x := 52, y := 55, vy := 0, active := true }, (52, 61))]
        [{ x := 40, y := 50, speed := 0, active := true, nextFireAt := 0, lane := 0 }]).1.getD
          1 dBP).1.active = true) ∧
    (((pbCollisionPass 0
        [({ x := 50, y := 55, vy := 0, active := true }, (50, 61)),
         ({ x := 52, y := 55, vy := 0, active := true }, (52, 61))]
        [{ x := 40, y := 50, speed := 0, active := true, nextFireAt := 0, lane := 0 }]).2.1.getD
          0 dE).active = false) := by
  refine ⟨by decide, by decide, by decide⟩

/-! ## Enemy-bullet vs. player: game over -/

/-- The game-over flag of the scan: raised exactly when some active enemy
bullet overlaps the player rectangle. -/
theorem ebPlayerScan_flag (px py : Int) :
    ∀ (bi : Nat) (l : List (Bullet × Pos)),
      ((ebPlayerScan px py bi l).2.1 = true ↔
        ∃ i, ((l.getD i dBP).1.active = true ∧
          hitTest (truncQ (l.getD i dBP).1.x) (truncQ (l.getD i dBP).1.y) px py = true)) := by
  intro bi l
  induction l generalizing bi with
  | nil =>
    constructor
    · intro h; simp [ebPlayerScan] at h
    · rintro ⟨i, hi, _⟩
      rw [show (([] : List (Bullet × Pos)).getD i dBP) = dBP from rfl] at hi
      cases hi
  | cons bp rest ih =>
    rw [exists_getD_cons_iff
      (fun x : Bullet × Pos => x.1.active = true ∧
        hitTest (truncQ x.1.x) (truncQ x.1.y) px py = true) bp dBP rest]
    rw [ebPlayerScan]
    split
    · next hact =>
      split
      · next hhit =>
        dsimp only
        constructor
        · intro _; exact Or.inl ⟨hact, hhit⟩
        · intro _; rfl
      · next hhit =>
        dsimp only
        rw [ih (bi + 1)]
        constructor
        · intro h; exact Or.inr h
        · rintro (⟨_, hh⟩ | h)
          · exact absurd hh hhit
          · exact h
    · next hact =>
      dsimp only
      rw [ih (bi + 1)]
      constructor
      · intro h; exact Or.inr h
      · rintro (⟨ha, _⟩ | h)
        · exact absurd ha hact
        · exact h

/-- The first active overlapping enemy bullet (the one the loop breaks on)
is deactivated by the scan. -/
theorem ebPlayerScan_first_deactivated (px py : Int) :
    ∀ (bi : Nat) (l : List (Bullet × Pos)) (i0 : Nat),
      findIdxP (fun bp => bp.1.active && hitTest (truncQ bp.1.x) (truncQ bp.1.y) px py) l =
        some i0 →
      (((ebPlayerScan px py bi l).1.getD i0 dBP).1.active = false) := by
  intro bi l
  induction l generalizing bi with
  | nil => intro i0 h; simp [findIdxP] at h
  | cons bp rest ih =>
    intro i0 h
    simp only [findIdxP] at h
    split at h
    · next hp =>
      cases h
      have hp' : _ ∧ _ := (Bool.and_eq_true _ _) ▸ hp
      rw [ebPlayerScan]
      rw [if_pos hp'.1, if_pos hp'.2]
      rfl
    · next hp =>
      cases hr : findIdxP (fun bp => bp.1.active && hitTest (truncQ bp.1.x) (truncQ bp.1.y) px py)
          rest with
      | none => rw [hr] at h; simp at h
      | some j =>
        rw [hr] at h
        simp at h
        cases h
        rw [ebPlayerScan]
        split
        · next hact =>
          split
          · next hhit =>
            rw [hact, hhit] at hp
            simp at hp
          · dsimp only
            rw [List.getD_cons_succ]
            exact ih (bi + 1) j hr
        · dsimp only
          rw [List.getD_cons_succ]
          exact ih (bi + 1) j hr

/-! ## Frame-level plumbing -/

/-- The session state at line 755, just before the collision passes: after
input, player movement and fire, and the three movement/render loops. -/
def midState (env : Env) (st : GState) : GState :=
  (ebPhase (pbPhase (enemyPhase env (playerFirePhase env (playerMovePhase env st).1).1 0).1).1).1

theorem hudPhase_isGameOver (env : Env) (s : GState) :
    (hudPhase env s).1.isGameOver = s.isGameOver := by
  unfold hudPhase; split <;> rfl

theorem wavePhase_isGameOver (env : Env) (s : GState) (k : Nat) :
    (wavePhase env s k).1.isGameOver = s.isGameOver := by
  unfold wavePhase; split <;> rfl

theorem hudPhase_eb (env : Env) (s : GState) : (hudPhase env s).1.eb = s.eb := by
  unfold hudPhase; split <;> rfl

theorem wavePhase_eb (env : Env) (s : GState) (k : Nat) : (wavePhase env s k).1.eb = s.eb := by
  unfold wavePhase; split <;> rfl

/-- The frame's game-over flag is the collision phase's, applied at the
pre-collision state; the later phases never change it. -/
theorem frameStep_isGameOver (env : Env) (st : GState) :
    (frameStep env st).1.isGameOver = (collisionPhase (midState env st)).1.isGameOver := by
  unfold frameStep
  dsimp only
  rw [show ∀ s : GState, (playerDrawPhase s).1.isGameOver = s.isGameOver from fun _ => rfl]
  rw [wavePhase_isGameOver, hudPhase_isGameOver]
  rfl

/-- The frame's outcome is `sessionOutcome` of the back button and the
frame's game-over flag. -/
theorem frameStep_outcome (env : Env) (st : GState) :
    (frameStep env st).2.1 = sessionOutcome env.backBtn (frameStep env st).1.isGameOver := rfl

/-- The collision phase's game-over flag: the old flag or the
enemy-bullet-vs-player scan's hit flag. -/
theorem collisionPhase_isGameOver (s : GState) :
    (collisionPhase s).1.isGameOver =
      (s.isGameOver ||
        (ebPlayerScan (truncQ s.playerX) playerYpos 0 (s.eb.zip s.prevEB)).2.1) := rfl

/-- The collision phase's enemy-bullet pool is the scan's output. -/
theorem collisionPhase_eb (s : GState) :
    (collisionPhase s).1.eb =
      (ebPlayerScan (truncQ s.playerX) playerYpos 0 (s.eb.zip s.prevEB)).1.map Prod.fst := rfl

theorem getD_map_fst (l : List (Bullet × Pos)) (i : Nat) (h : i < l.length) :
    (l.map Prod.fst).getD i dB = (l.getD i dBP).1 := by
  rw [List.getD_eq_getElem _ _ (by simpa using h), List.getD_eq_getElem _ _ h]
  simp

/-- **C8**: if, at the collision point of a frame, some active enemy bullet
overlaps the player rectangle, then the first such bullet (the one the
break stops on) is deactivated, the frame raises the game-over flag, and —
unless the back button preempts it — the session's outcome is `GameOver`.
The flag alone is terminal: there is no health pool to decrement. -/
theorem c8_enemy_bullet_hit_terminal (env : Env) (st : GState)
    (h : ∃ i, ((((midState env st).eb.zip (midState env st).prevEB).getD i dBP).1.active = true ∧
      hitTest (truncQ (((midState env st).eb.zip (midState env st).prevEB).getD i dBP).1.x)
        (truncQ (((midState env st).eb.zip (midState env st).prevEB).getD i dBP).1.y)
        (truncQ (midState env st).playerX) playerYpos = true)) :
    (frameStep env st).1.isGameOver = true ∧
    (env.backBtn = false → (frameStep env st).2.1 = Outcome.gameOver) ∧
    (∀ i0, findIdxP (fun bp => bp.1.active &&
        hitTest (truncQ bp.1.x) (truncQ bp.1.y) (truncQ (midState env st).playerX) playerYpos)
        ((midState env st).eb.zip (midState env st).prevEB) = some i0 →
      ((collisionPhase (midState env st)).1.eb.getD i0 dB).active = false) := by
  have hflag : (ebPlayerScan (truncQ (midState env st).playerX) playerYpos 0
      ((midState env st).eb.zip (midState env st).prevEB)).2.1 = true :=
    (ebPlayerScan_flag _ _ 0 _).2 h
  have hgo : (frameStep env st).1.isGameOver = true := by
    rw [frameStep_isGameOver, collisionPhase_isGameOver, hflag, Bool.or_true]
  refine ⟨hgo, fun hback => ?_, fun i0 hi0 => ?_⟩
  · rw [frameStep_outcome, hgo, hback]
    rfl
  · have hlt := findIdxP_some_lt hi0
    rw [collisionPhase_eb]
    rw [getD_map_fst _ i0 (by
      rw [ebPlayerScan_length]
      exact hlt)]
    exact ebPlayerScan_first_deactivated _ _ 0 _ i0 hi0

/-- Witness for C8: a single enemy bullet resting on the player rectangle
(zero velocity for this frame), all other pools empty; the frame ends in
`GameOver` and the bullet is deactivated. -/
theorem c8_enemy_bullet_hit_terminal_witness :
    (frameStep
      { n := 0, fireBtn := false, backBtn := false, now := 0, difficulty := 1, rnd := fun _ => 0 }
      { playerX := 50, playerVel := 0, lastN := 0, lastPlayerFire := 0,
        enemies := [], pb := [], eb := [{ x := 50, y := 132, vy := 0, active := true }],
        prevPlayer := (50, 132), prevE := [], prevPB := [], prevEB := [(50, 126)],
        score := 0, lastScoreTick := 0, isGameOver := false }).1.isGameOver = true ∧
    (frameStep
      { n := 0, fireBtn := false, backBtn := false, now := 0, difficulty := 1, rnd := fun _ => 0 }
      { playerX := 50, playerVel := 0, lastN := 0, lastPlayerFire := 0,
        enemies := [], pb := [], eb := [{ x := 50, y := 132, vy := 0, active := true }],
        prevPlayer := (50, 132), prevE := [], prevPB := [], prevEB := [(50, 126)],
        score := 0, lastScoreTick := 0, isGameOver := false }).2.1 = Outcome.gameOver := by
  have h := c8_enemy_bullet_hit_terminal
    { n := 0, fireBtn := false, backBtn := false, now := 0, difficulty := 1, rnd := fun _ => 0 }
    { playerX := 50, playerVel := 0, lastN := 0, lastPlayerFire := 0,
      enemies := [], pb := [], eb := [{ x := 50, y := 132, vy := 0, active := true }],
      prevPlayer := (50, 132), prevE := [], prevPB := [], prevEB := [(50, 126)],
      score := 0, lastScoreTick := 0, isGameOver := false }
    ⟨0, by decide, by decide⟩
  exact ⟨h.1, h.2.1 rfl⟩

/-! ## Score accounting -/

/-- One bullet's scan adds a multiple of the 10-point reward. -/
theorem pbScanEnemies_score_mul (bi : Nat) (bx byv : Int) (prevB : Pos) :
    ∀ (ei : Nat) (ens : List Enemy), ∃ n, (pbScanEnemies bi bx byv prevB ei ens).2.2.1 = 10 * n := by
  intro ei ens
  induction ens generalizing ei with
  | nil => exact ⟨0, rfl⟩
  | cons e rest ih =>
    rw [pbScanEnemies]
    split
    · split
      · obtain ⟨n, hn⟩ := ih (ei + 1)
        exact ⟨n + 1, by dsimp only; rw [hn]; ring⟩
      · obtain ⟨n, hn⟩ := ih (ei + 1)
        exact ⟨n, by dsimp only; rw [hn]⟩
    · obtain ⟨n, hn⟩ := ih (ei + 1)
      exact ⟨n, by dsimp only; rw [hn]⟩

/-- The collision pass's score delta is a multiple of the 10-point reward. -/
theorem pbCollisionPass_score_mul :
    ∀ (bi : Nat) (l : List (Bullet × Pos)) (ens : List Enemy),
      ∃ n, (pbCollisionPass bi l ens).2.2.1 = 10 * n := by
  intro bi l
  induction l generalizing bi with
  | nil => intro ens; exact ⟨0, rfl⟩
  | cons bp rest ih =>
    intro ens
    rw [pbCollisionPass]
    split
    · obtain ⟨a, ha⟩ := pbScanEnemies_score_mul bi (truncQ bp.1.x) (truncQ bp.1.y) bp.2 0 ens
      obtain ⟨b, hb⟩ := ih (bi + 1)
        (pbScanEnemies bi (truncQ bp.1.x) (truncQ bp.1.y) bp.2 0 ens).1
      exact ⟨a + b, by dsimp only; rw [ha, hb]; ring⟩
    · obtain ⟨b, hb⟩ := ih (bi + 1) ens
      exact ⟨b, by dsimp only; rw [hb]⟩

/-- With no active player bullet the collision pass scores nothing. -/
theorem pbCollisionPass_score_zero :
    ∀ (bi : Nat) (l : List (Bullet × Pos)) (ens : List Enemy),
      (∀ bp ∈ l, bp.1.active = false) → (pbCollisionPass bi l ens).2.2.1 = 0 := by
  intro bi l
  induction l generalizing bi with
  | nil => intro ens _; rfl
  | cons bp rest ih =>
    intro ens h
    rw [pbCollisionPass]
    rw [if_neg (by rw [h bp (List.mem_cons_self _ _)]; exact Bool.false_ne_true)]
    exact ih (bi + 1) ens (fun x hx => h x (List.mem_cons_of_mem _ hx))

theorem midState_score (env : Env) (st : GState) :
    (midState env st).score = st.score ∧
    (midState env st).lastScoreTick = st.lastScoreTick := by
  unfold midState
  have h2 : (playerFirePhase env (playerMovePhase env st).1).1.score =
        (playerMovePhase env st).1.score ∧
      (playerFirePhase env (playerMovePhase env st).1).1.lastScoreTick =
        (playerMovePhase env st).1.lastScoreTick := by
    unfold playerFirePhase
    split
    · cases hf : findIdxP (fun b => !b.active) (playerMovePhase env st).1.pb with
      | none => exact ⟨rfl, rfl⟩
      | some bi => exact ⟨rfl, rfl⟩
    · exact ⟨rfl, rfl⟩
  exact ⟨h2.1, h2.2⟩

theorem wavePhase_score (env : Env) (s : GState) (k : Nat) :
    (wavePhase env s k).1.score = s.score ∧
    (wavePhase env s k).1.lastScoreTick = s.lastScoreTick := by
  unfold wavePhase; split
  · exact ⟨rfl, rfl⟩
  · exact ⟨rfl, rfl⟩

theorem hudPhase_score (env : Env) (s : GState) :
    (hudPhase env s).1.score =
      s.score + (if 200 ≤ env.now - s.lastScoreTick then 1 else 0) := by
  unfold hudPhase
  split
  · rfl
  · simp

theorem frameStep_score_eq (env : Env) (st : GState) :
    (frameStep env st).1.score = (hudPhase env (collisionPhase (midState env st)).1).1.score := by
  unfold frameStep
  dsimp only
  rw [show ∀ s : GState, (playerDrawPhase s).1.score = s.score from fun _ => rfl]
  rw [(wavePhase_score env _ _).1]
  rfl

/-- **C9**: across a frame, the score is the old score plus ten points per
collision reward plus exactly one point when 200 ms of session time have
elapsed since the last tick; hence the score never decreases, it grows by
at least one on every 200 ms tick independently of collisions, and in a
frame with no active player bullet (so no bullet can hit an enemy) it
grows by exactly the tick point. -/
theorem c9_score_tick (env : Env) (st : GState) :
    (∃ n, (frameStep env st).1.score =
      st.score + 10 * n + (if 200 ≤ env.now - st.lastScoreTick then 1 else 0)) ∧
    st.score ≤ (frameStep env st).1.score ∧
    (200 ≤ env.now - st.lastScoreTick → st.score + 1 ≤ (frameStep env st).1.score) ∧
    ((∀ bp ∈ (midState env st).pb.zip (midState env st).prevPB, bp.1.active = false) →
      (frameStep env st).1.score =
        st.score + (if 200 ≤ env.now - st.lastScoreTick then 1 else 0)) := by
  have hmid := midState_score env st
  have h6s : (collisionPhase (midState env st)).1.score =
      st.score + (pbCollisionPass 0
        ((midState env st).pb.zip (midState env st).prevPB) (midState env st).enemies).2.2.1 := by
    rw [show ∀ s : GState, (collisionPhase s).1.score =
        s.score + (pbCollisionPass 0 (s.pb.zip s.prevPB) s.enemies).2.2.1 from fun _ => rfl]
    rw [hmid.1]
  have h6t : (collisionPhase (midState env st)).1.lastScoreTick = st.lastScoreTick := by
    rw [show ∀ s : GState, (collisionPhase s).1.lastScoreTick = s.lastScoreTick from
      fun _ => rfl]
    exact hmid.2
  have hmain : (frameStep env st).1.score =
      st.score + (pbCollisionPass 0
        ((midState env st).pb.zip (midState env st).prevPB) (midState env st).enemies).2.2.1 +
      (if 200 ≤ env.now - st.lastScoreTick then 1 else 0) := by
    rw [frameStep_score_eq, hudPhase_score, h6s, h6t]
  obtain ⟨n, hn⟩ := pbCollisionPass_score_mul 0
    ((midState env st).pb.zip (midState env st).prevPB) (midState env st).enemies
  refine ⟨⟨n, by rw [hmain, hn]⟩, ?_, ?_, ?_⟩
  · rw [hmain]; omega
  · intro h; rw [hmain, if_pos h]; omega
  · intro h
    rw [hmain, pbCollisionPass_score_zero 0 _ _ h]
    simp

/-- Witness for C9: the concrete game-over witness state with the clock
210 ms past the last tick; the frame adds the tick point. -/
theorem c9_score_tick_witness :
    (∃ n, (frameStep
      { n := 0, fireBtn := false, backBtn := false, now := 210, difficulty := 1, rnd := fun _ => 0 }
      { playerX := 50, playerVel := 0, lastN := 0, lastPlayerFire := 0,
        enemies := [], pb := [], eb := [],
        prevPlayer := (50, 132), prevE := [], prevPB := [], prevEB := [],
        score := 7, lastScoreTick := 0, isGameOver := false }).1.score =
      7 + 10 * n + (if (200 : Nat) ≤ 210 - 0 then 1 else 0)) ∧
    7 + 1 ≤ (frameStep
      { n := 0, fireBtn := false, backBtn := false, now := 210, difficulty := 1, rnd := fun _ => 0 }
      { playerX := 50, playerVel := 0, lastN := 0, lastPlayerFire := 0,
        enemies := [], pb := [], eb := [],
        prevPlayer := (50, 132), prevE := [], prevPB := [], prevEB := [],
        score := 7, lastScoreTick := 0, isGameOver := false }).1.score := by
  have h := c9_score_tick
    { n := 0, fireBtn := false, backBtn := false, now := 210, difficulty := 1, rnd := fun _ => 0 }
    { playerX := 50, playerVel := 0, lastN := 0, lastPlayerFire := 0,
      enemies := [], pb := [], eb := [],
      prevPlayer := (50, 132), prevE := [], prevPB := [], prevEB := [],
      score := 7, lastScoreTick := 0, isGameOver := false }
  exact ⟨h.1, h.2.2.1 (by decide)⟩

/-! ## Event ordering within a frame -/

/-- `AllBefore p q tr`: in trace `tr`, every `p`-event occurs strictly
before every `q`-event. -/
def AllBefore (p q : Ev → Bool) (l : List Ev) : Prop :=
  ∀ i, i < l.length → ∀ j, j < l.length → i ≤ j →
    q (l.getD i Ev.exitCheck) = true → p (l.getD j Ev.exitCheck) = true → False

instance (p q : Ev → Bool) (l : List Ev) : Decidable (AllBefore p q l) := by
  unfold AllBefore; infer_instance

/-- The full ordering asserted by the specification: physics before
collision evaluation before rendering before the exit check. -/
def specFrameOrder (l : List Ev) : Prop :=
  AllBefore Ev.isPhysics Ev.isColTest l ∧
  AllBefore Ev.isColTest Ev.isRender l ∧
  AllBefore Ev.isRender Ev.isExitCheck l

instance (l : List Ev) : Decidable (specFrameOrder l) := by
  unfold specFrameOrder; infer_instance

theorem AllBefore_of_split (p q : Ev → Bool) (A B : List Ev)
    (hA : ∀ ev ∈ A, q ev = false) (hB : ∀ ev ∈ B, p ev = false) :
    AllBefore p q (A ++ B) := by
  intro i hi j hj hij hq hp
  by_cases hiA : i < A.length
  · have hgd : (A ++ B).getD i Ev.exitCheck = A.getD i Ev.exitCheck := by
      unfold List.getD
      rw [List.get?_append hiA]
    rw [hgd] at hq
    have := hA (A.getD i Ev.exitCheck) (getD_mem A i Ev.exitCheck hiA)
    rw [this] at hq
    cases hq
  · have hjB : A.length ≤ j := le_trans (le_of_not_lt hiA) hij
    have hgd : (A ++ B).getD j Ev.exitCheck = B.getD (j - A.length) Ev.exitCheck := by
      unfold List.getD
      rw [List.get?_append_right hjB]
    rw [hgd] at hp
    have hjlt : j - A.length < B.length := by
      rw [List.length_append] at hj
      omega
    have := hB (B.getD (j - A.length) Ev.exitCheck) (getD_mem B (j - A.length) Ev.exitCheck hjlt)
    rw [this] at hp
    cases hp

/-- Movement-side event tag: not a collision evaluation, not the exit poll. -/
def moveOk (ev : Ev) : Bool := !ev.isColTest && !ev.isExitCheck

/-- Post-collision event tag: not a physics mutation, not the exit poll. -/
def postOk (ev : Ev) : Bool := !ev.isPhysics && !ev.isExitCheck

theorem moveOk_colTest {ev : Ev} (h : moveOk ev = true) : ev.isColTest = false := by
  cases hc : ev.isColTest
  · rfl
  · rw [moveOk, hc] at h; simp at h

theorem moveOk_exit {ev : Ev} (h : moveOk ev = true) : ev.isExitCheck = false := by
  cases hc : ev.isExitCheck
  · rfl
  · rw [moveOk, hc] at h; simp at h

theorem postOk_physics {ev : Ev} (h : postOk ev = true) : ev.isPhysics = false := by
  cases hc : ev.isPhysics
  · rfl
  · rw [postOk, hc] at h; simp at h

theorem postOk_exit {ev : Ev} (h : postOk ev = true) : ev.isExitCheck = false := by
  cases hc : ev.isExitCheck
  · rfl
  · rw [postOk, hc] at h; simp at h

theorem emitErase_all (p : Ev → Bool) (mk : Int → Int → Int → Int → Ev) (x y w h : Int)
    (hp : p (mk x y w h) = true) : (emitErase mk x y w h).all p = true := by
  unfold emitErase
  split
  · simp [hp]
  · rfl

theorem all_append_of (p : Ev → Bool) {l1 l2 : List Ev} (h1 : l1.all p = true)
    (h2 : l2.all p = true) : (l1 ++ l2).all p = true := by
  rw [List.all_append, h1, h2]
  rfl

theorem all_cons_of (p : Ev → Bool) {l : List Ev} {e : Ev} (he : p e = true)
    (h : l.all p = true) : (e :: l).all p = true := by
  rw [List.all_cons, he, h]
  rfl

theorem ite_nil_emit_all (p : Ev → Bool) {c : Prop} [Decidable c]
    (mk : Int → Int → Int → Int → Ev) (x y w h : Int) (hp : p (mk x y w h) = true) :
    (if c then ([] : List Ev) else emitErase mk x y w h).all p = true := by
  split
  · rfl
  · exact emitErase_all p mk x y w h hp

/-! ### Movement phases carry no collision evaluation and no exit poll -/

theorem playerMovePhase_evs_all (env : Env) (st : GState) :
    (playerMovePhase env st).2.all moveOk = true := by
  unfold playerMovePhase
  dsimp only
  exact all_cons_of _ rfl (ite_nil_emit_all _ _ _ _ _ _ rfl)

theorem playerFirePhase_evs_all (env : Env) (st : GState) :
    (playerFirePhase env st).2.all moveOk = true := by
  unfold playerFirePhase
  split
  · cases hf : findIdxP (fun b => !b.active) st.pb with
    | none => rfl
    | some bi => rfl
  · rfl

theorem fireEnemyBullet_evs_all (e : Enemy) (d : ℚ) (s : EnemyPassSt)
    (h : s.evs.all moveOk = true) : (fireEnemyBullet e d s).evs.all moveOk = true := by
  unfold fireEnemyBullet
  cases hf : findIdxP (fun b => !b.active) s.eb with
  | none => exact h
  | some bi => exact all_append_of _ h rfl

theorem enemySlotStep_evs_all (now : Nat) (diff : ℚ) (rnd : Nat → Nat) (idx : Nat)
    (e : Enemy) (prev : Pos) (s : EnemyPassSt) (h : s.evs.all moveOk = true) :
    (enemySlotStep now diff rnd idx e prev s).2.2.evs.all moveOk = true := by
  have hev1 : (if prev.2 ≥ -1000 then
      emitErase (Ev.eraseStale .enemy idx) prev.1 prev.2 CAR_W (CAR_H + 4) else []).all
      moveOk = true := by
    split
    · exact emitErase_all moveOk _ _ _ _ _ rfl
    · rfl
  unfold enemySlotStep
  split
  · dsimp only
    split
    · exact all_append_of _ (all_append_of _ h (all_append_of _ hev1 rfl))
        (emitErase_all moveOk _ _ _ _ _ rfl)
    · split
      · dsimp only
        exact fireEnemyBullet_evs_all _ _ _
          (all_append_of _ h (all_append_of _ hev1 rfl))
      · exact all_append_of _ h (all_append_of _ hev1 rfl)
  · exact h

theorem enemyPassGo_evs_all (now : Nat) (diff : ℚ) (rnd : Nat → Nat) :
    ∀ (idx : Nat) (eps : List (Enemy × Pos)) (s : EnemyPassSt),
      s.evs.all moveOk = true →
      (enemyPassGo now diff rnd idx eps s).2.evs.all moveOk = true := by
  intro idx eps
  induction eps generalizing idx with
  | nil => intro s h; exact h
  | cons ep rest ih =>
    intro s h
    rw [enemyPassGo]
    exact ih (idx + 1) _ (enemySlotStep_evs_all now diff rnd idx ep.1 ep.2 s h)

theorem enemyPhase_evs_all (env : Env) (st : GState) (k : Nat) :
    (enemyPhase env st k).2.2.all moveOk = true := by
  unfold enemyPhase
  exact enemyPassGo_evs_all env.now env.difficulty env.rnd 0 _ _ rfl

theorem pbSlotStep_evs_all (idx : Nat) (b : Bullet) (p : Pos) :
    (pbSlotStep idx b p).2.2.all moveOk = true := by
  have hev1 : (if p.2 ≥ 0 then
      emitErase (Ev.eraseStale .pbullet idx) (p.1 - 3) (p.2 - 6) 6 12 else []).all
      moveOk = true := by
    split
    · exact emitErase_all moveOk _ _ _ _ _ rfl
    · rfl
  unfold pbSlotStep
  split
  · dsimp only
    split
    · exact all_append_of _ (all_append_of _ hev1 rfl) (emitErase_all moveOk _ _ _ _ _ rfl)
    · exact all_append_of _ hev1 rfl
  · rfl

theorem ebSlotStep_evs_all (idx : Nat) (b : Bullet) (p : Pos) :
    (ebSlotStep idx b p).2.2.all moveOk = true := by
  have hev1 : (if p.2 ≥ 0 then
      emitErase (Ev.eraseStale .ebullet idx) (p.1 - 3) (p.2 - 6) 6 12 else []).all
      moveOk = true := by
    split
    · exact emitErase_all moveOk _ _ _ _ _ rfl
    · rfl
  unfold ebSlotStep
  split
  · dsimp only
    split
    · exact all_append_of _ (all_append_of _ hev1 rfl) (emitErase_all moveOk _ _ _ _ _ rfl)
    · exact all_append_of _ hev1 rfl
  · rfl

theorem bulletPassGo_evs_all (step : Nat → Bullet → Pos → Bullet × Pos × List Ev)
    (hstep : ∀ idx b p, (step idx b p).2.2.all moveOk = true) :
    ∀ (idx : Nat) (l : List (Bullet × Pos)),
      (bulletPassGo step idx l).2.all moveOk = true := by
  intro idx l
  induction l generalizing idx with
  | nil => rfl
  | cons bp rest ih =>
    rw [bulletPassGo]
    exact all_append_of _ (hstep idx bp.1 bp.2) (ih (idx + 1))

theorem pbPhase_evs_all (st : GState) : (pbPhase st).2.all moveOk = true := by
  unfold pbPhase
  exact bulletPassGo_evs_all pbSlotStep pbSlotStep_evs_all 0 _

theorem ebPhase_evs_all (st : GState) : (ebPhase st).2.all moveOk = true := by
  unfold ebPhase
  exact bulletPassGo_evs_all ebSlotStep ebSlotStep_evs_all 0 _

/-! ### Post-collision phases carry no physics mutation and no exit poll -/

theorem pbScanEnemies_evs_all (bi : Nat) (bx byv : Int) (prevB : Pos) :
    ∀ (ei : Nat) (ens : List Enemy),
      (pbScanEnemies bi bx byv prevB ei ens).2.2.2.all postOk = true := by
  intro ei ens
  induction ens generalizing ei with
  | nil => rfl
  | cons e rest ih =>
    rw [pbScanEnemies]
    split
    · split
      · dsimp only
        exact all_append_of _
          (all_append_of _
            (all_append_of _
              (all_append_of _
                (all_append_of _ rfl (emitErase_all postOk _ _ _ _ _ rfl))
                (emitErase_all postOk _ _ _ _ _ rfl))
              rfl)
            (emitErase_all postOk _ _ _ _ _ rfl))
          (ih (ei + 1))
      · exact all_cons_of _ rfl (ih (ei + 1))
    · exact ih (ei + 1)

theorem pbCollisionPass_evs_all :
    ∀ (bi : Nat) (l : List (Bullet × Pos)) (ens : List Enemy),
      (pbCollisionPass bi l ens).2.2.2.all postOk = true := by
  intro bi l
  induction l generalizing bi with
  | nil => intro ens; rfl
  | cons bp rest ih =>
    intro ens
    rw [pbCollisionPass]
    split
    · exact all_append_of _ (pbScanEnemies_evs_all bi _ _ _ 0 ens) (ih (bi + 1) _)
    · exact ih (bi + 1) ens

theorem ebPlayerScan_evs_all (px py : Int) :
    ∀ (bi : Nat) (l : List (Bullet × Pos)),
      (ebPlayerScan px py bi l).2.2.all postOk = true := by
  intro bi l
  induction l generalizing bi with
  | nil => rfl
  | cons bp rest ih =>
    rw [ebPlayerScan]
    split
    · split
      · exact all_cons_of _ rfl (emitErase_all postOk _ _ _ _ _ rfl)
      · exact all_cons_of _ rfl (ih (bi + 1))
    · exact ih (bi + 1)

theorem collisionPhase_evs_all (s : GState) : (collisionPhase s).2.all postOk = true := by
  unfold collisionPhase
  dsimp only
  exact all_append_of _ (pbCollisionPass_evs_all 0 _ _) (ebPlayerScan_evs_all _ _ 0 _)

theorem hudPhase_evs_all (env : Env) (s : GState) : (hudPhase env s).2.all postOk = true := by
  unfold hudPhase
  split
  · rfl
  · rfl

theorem spawnLoop_evs_all (now : Nat) (diff : ℚ) (rnd : Nat → Nat) :
    ∀ (lanes : List Nat) (k spawned : Nat) (ens : List Enemy),
      (spawnLoop now diff rnd k spawned lanes ens).2.2.all postOk = true := by
  intro lanes
  induction lanes with
  | nil => intro k spawned ens; rfl
  | cons lane rest ih =>
    intro k spawned ens
    rw [spawnLoop]
    split
    · cases hf : findIdxP (fun e => !e.active) ens with
      | none => rfl
      | some idx => exact all_cons_of _ rfl (ih _ _ _)
    · rfl

theorem wavePhase_evs_all (env : Env) (s : GState) (k : Nat) :
    (wavePhase env s k).2.2.all postOk = true := by
  unfold wavePhase
  split
  · exact spawnLoop_evs_all _ _ _ _ _ _ _
  · rfl

theorem playerDrawPhase_evs_all (s : GState) : (playerDrawPhase s).2.all postOk = true := rfl

/-! ### The frame trace splits at the collision boundary and at the exit poll -/

theorem frameStep_trace_split1 (env : Env) (st : GState) :
    (frameStep env st).2.2 =
      ((playerMovePhase env st).2 ++
        ((playerFirePhase env (playerMovePhase env st).1).2 ++
          ((enemyPhase env (playerFirePhase env (playerMovePhase env st).1).1 0).2.2 ++
            ((pbPhase (enemyPhase env (playerFirePhase env (playerMovePhase env st).1).1 0).1).2 ++
              (ebPhase (pbPhase (enemyPhase env
                (playerFirePhase env (playerMovePhase env st).1).1 0).1).1).2)))) ++
      ((collisionPhase (midState env st)).2 ++
        ((hudPhase env (collisionPhase (midState env st)).1).2 ++
          ((wavePhase env (hudPhase env (collisionPhase (midState env st)).1).1
              (enemyPhase env (playerFirePhase env (playerMovePhase env st).1).1 0).2.1).2.2 ++
            ((playerDrawPhase (wavePhase env (hudPhase env (collisionPhase (midState env st)).1).1
                (enemyPhase env (playerFirePhase env (playerMovePhase env st).1).1 0).2.1).1).2 ++
              [Ev.exitCheck])))) := by
  unfold frameStep midState
  dsimp only
  simp [List.append_assoc]

theorem frameStep_trace_split2 (env : Env) (st : GState) :
    (frameStep env st).2.2 =
      ((playerMovePhase env st).2 ++
        ((playerFirePhase env (playerMovePhase env st).1).2 ++
          ((enemyPhase env (playerFirePhase env (playerMovePhase env st).1).1 0).2.2 ++
            ((pbPhase (enemyPhase env (playerFirePhase env (playerMovePhase env st).1).1 0).1).2 ++
              ((ebPhase (pbPhase (enemyPhase env
                  (playerFirePhase env (playerMovePhase env st).1).1 0).1).1).2 ++
                ((collisionPhase (midState env st)).2 ++
                  ((hudPhase env (collisionPhase (midState env st)).1).2 ++
                    ((wavePhase env (hudPhase env (collisionPhase (midState env st)).1).1
                        (enemyPhase env (playerFirePhase env (playerMovePhase env st).1).1 0).2.1).2.2 ++
                      (playerDrawPhase (wavePhase env
                          (hudPhase env (collisionPhase (midState env st)).1).1
                          (enemyPhase env (playerFirePhase env
                            (playerMovePhase env st).1).1 0).2.1).1).2)))))))) ++
      [Ev.exitCheck] := by
  unfold frameStep midState
  dsimp only
  simp [List.append_assoc]

/-- No event before the exit poll is itself the exit poll. -/
theorem frameStep_preExit_noExit (env : Env) (st : GState) :
    ∀ ev ∈ ((playerMovePhase env st).2 ++
      ((playerFirePhase env (playerMovePhase env st).1).2 ++
        ((enemyPhase env (playerFirePhase env (playerMovePhase env st).1).1 0).2.2 ++
          ((pbPhase (enemyPhase env (playerFirePhase env (playerMovePhase env st).1).1 0).1).2 ++
            ((ebPhase (pbPhase (enemyPhase env
                (playerFirePhase env (playerMovePhase env st).1).1 0).1).1).2 ++
              ((collisionPhase (midState env st)).2 ++
                ((hudPhase env (collisionPhase (midState env st)).1).2 ++
                  ((wavePhase env (hudPhase env (collisionPhase (midState env st)).1).1
                      (enemyPhase env (playerFirePhase env (playerMovePhase env st).1).1 0).2.1).2.2 ++
                    (playerDrawPhase (wavePhase env
                        (hudPhase env (collisionPhase (midState env st)).1).1
                        (enemyPhase env (playerFirePhase env
                          (playerMovePhase env st).1).1 0).2.1).1).2)))))))),
      ev.isExitCheck = false := by
  intro ev hev
  rcases List.mem_append.1 hev with h1 | h2
  · exact moveOk_exit (List.all_eq_true.1 (playerMovePhase_evs_all env st) ev h1)
  rcases List.mem_append.1 h2 with h3 | h4
  · exact moveOk_exit (List.all_eq_true.1 (playerFirePhase_evs_all env _) ev h3)
  rcases List.mem_append.1 h4 with h5 | h6
  · exact moveOk_exit (List.all_eq_true.1 (enemyPhase_evs_all env _ 0) ev h5)
  rcases List.mem_append.1 h6 with h7 | h8
  · exact moveOk_exit (List.all_eq_true.1 (pbPhase_evs_all _) ev h7)
  rcases List.mem_append.1 h8 with h9 | h10
  · exact moveOk_exit (List.all_eq_true.1 (ebPhase_evs_all _) ev h9)
  rcases List.mem_append.1 h10 with h11 | h12
  · exact postOk_exit (List.all_eq_true.1 (collisionPhase_evs_all _) ev h11)
  rcases List.mem_append.1 h12 with h13 | h14
  · exact postOk_exit (List.all_eq_true.1 (hudPhase_evs_all env _) ev h13)
  rcases List.mem_append.1 h14 with h15 | h16
  · exact postOk_exit (List.all_eq_true.1 (wavePhase_evs_all env _ _) ev h15)
  · exact postOk_exit (List.all_eq_true.1 (playerDrawPhase_evs_all _) ev h16)

/-- **C4 (amended)**: within every frame of the lane-dodge loop, all physics
mutations (player, enemy and bullet position updates) occur before all
collision evaluations, and both all collision evaluations and all rendering
operations occur before the exit-button check. The clause of the original
claim this drops: rendering is *not* confined to after collision
evaluation — each entity is erased and redrawn inside its own movement
loop, before the collision passes, and the collision passes themselves
emit erases (see the counterexample). -/
theorem c4_frame_ordering (env : Env) (st : GState) :
    AllBefore Ev.isPhysics Ev.isColTest (frameStep env st).2.2 ∧
    AllBefore Ev.isColTest Ev.isExitCheck (frameStep env st).2.2 ∧
    AllBefore Ev.isRender Ev.isExitCheck (frameStep env st).2.2 := by
  refine ⟨?_, ?_, ?_⟩
  · rw [frameStep_trace_split1]
    refine AllBefore_of_split _ _ _ _ ?_ ?_
    · intro ev hev
      rcases List.mem_append.1 hev with h1 | h2
      · exact moveOk_colTest (List.all_eq_true.1 (playerMovePhase_evs_all env st) ev h1)
      rcases List.mem_append.1 h2 with h3 | h4
      · exact moveOk_colTest (List.all_eq_true.1 (playerFirePhase_evs_all env _) ev h3)
      rcases List.mem_append.1 h4 with h5 | h6
      · exact moveOk_colTest (List.all_eq_true.1 (enemyPhase_evs_all env _ 0) ev h5)
      rcases List.mem_append.1 h6 with h7 | h8
      · exact moveOk_colTest (List.all_eq_true.1 (pbPhase_evs_all _) ev h7)
      · exact moveOk_colTest (List.all_eq_true.1 (ebPhase_evs_all _) ev h8)
    · intro ev hev
      rcases List.mem_append.1 hev with h1 | h2
      · exact postOk_physics (List.all_eq_true.1 (collisionPhase_evs_all _) ev h1)
      rcases List.mem_append.1 h2 with h3 | h4
      · exact postOk_physics (List.all_eq_true.1 (hudPhase_evs_all env _) ev h3)
      rcases List.mem_append.1 h4 with h5 | h6
      · exact postOk_physics (List.all_eq_true.1 (wavePhase_evs_all env _ _) ev h5)
      rcases List.mem_append.1 h6 with h7 | h8
      · exact postOk_physics (List.all_eq_true.1 (playerDrawPhase_evs_all _) ev h7)
      · rw [List.mem_singleton.1 h8]
        rfl
  · rw [frameStep_trace_split2]
    refine AllBefore_of_split _ _ _ _ (frameStep_preExit_noExit env st) ?_
    intro ev hev
    rw [List.mem_singleton.1 hev]
    rfl
  · rw [frameStep_trace_split2]
    refine AllBefore_of_split _ _ _ _ (frameStep_preExit_noExit env st) ?_
    intro ev hev
    rw [List.mem_singleton.1 hev]
    rfl

/-- Counterexample to C4 as stated: with one active enemy (drawn during the
enemy movement loop) and one active enemy bullet far from the player (whose
collision test against the player runs later), the frame's trace contains a
rendering operation before a collision evaluation, so the claimed
physics → collision → rendering → exit-check ordering is violated. -/
theorem c4_frame_ordering_counterexample :
    ¬ specFrameOrder (frameStep
      { n := 0, fireBtn := false, backBtn := false, now := 0, difficulty := 1, rnd := fun _ => 0 }
      { playerX := 50, playerVel := 0, lastN := 0, lastPlayerFire := 0,
        enemies := [{ x := 50, y := -50, speed := 1, active := true, nextFireAt := 1000, lane := 0 }],
        pb := [], eb := [{ x := 10, y := 10, vy := 0, active := true }],
        prevPlayer := (50, 132), prevE := [(-100, -100)], prevPB := [], prevEB := [(10, 4)],
        score := 0, lastScoreTick := 0, isGameOver := false }).2.2 := by
  decide

/-! ## Render-differ accounting (C1) -/

def isEnemyDrawEv : Ev → Bool
  | .draw .enemy _ _ _ => true
  | _ => false

def isEnemyEraseDeadEv : Ev → Bool
  | .eraseDead .enemy _ _ _ _ _ => true
  | _ => false

def isEnemyEraseStaleEv : Ev → Bool
  | .eraseStale .enemy _ _ _ _ _ => true
  | _ => false

def isPbDrawEv : Ev → Bool
  | .draw .pbullet _ _ _ => true
  | _ => false

def isPbEraseDeadEv : Ev → Bool
  | .eraseDead .pbullet _ _ _ _ _ => true
  | _ => false

def isPbEraseStaleEv : Ev → Bool
  | .eraseStale .pbullet _ _ _ _ _ => true
  | _ => false

def isEbDrawEv : Ev → Bool
  | .draw .ebullet _ _ _ => true
  | _ => false

def isEbEraseDeadEv : Ev → Bool
  | .eraseDead .ebullet _ _ _ _ _ => true
  | _ => false

def isEbEraseStaleEv : Ev → Bool
  | .eraseStale .ebullet _ _ _ _ _ => true
  | _ => false

def isEraseDeadEv : Ev → Bool
  | .eraseDead .. => true
  | _ => false

theorem filter_emitErase_pos (p : Ev → Bool) (mk : Int → Int → Int → Int → Ev)
    (hmk : ∀ a b c d, p (mk a b c d) = true) (x y w h : Int) :
    (emitErase mk x y w h).filter p = emitErase mk x y w h := by
  unfold emitErase
  split
  · simp [hmk]
  · rfl

theorem filter_emitErase_neg (p : Ev → Bool) (mk : Int → Int → Int → Int → Ev)
    (hmk : ∀ a b c d, p (mk a b c d) = false) (x y w h : Int) :
    (emitErase mk x y w h).filter p = [] := by
  unfold emitErase
  split
  · simp [hmk]
  · rfl

theorem fireEnemyBullet_evs_filter (e : Enemy) (d : ℚ) (s : EnemyPassSt) (p : Ev → Bool)
    (hp : ∀ k bi, p (Ev.spawnEv k bi) = false) :
    (fireEnemyBullet e d s).evs.filter p = s.evs.filter p := by
  unfold fireEnemyBullet
  cases hf : findIdxP (fun b => !b.active) s.eb with
  | none => rfl
  | some bi =>
    dsimp only
    rw [List.filter_append]
    simp [hp]

/-- Differ facts for one active enemy slot (lines 714-733): the cache ends
at the truncated post-integration position, which is exactly where the slot
was drawn (one draw); the slot deactivates exactly when it crossed the
bottom edge, in which case its just-drawn rectangle is erased once (the
erase clipped away exactly when the rectangle is fully off-screen); no
deactivation erase otherwise; and the stale erase targets exactly the
incoming cached position. -/
theorem enemySlotStep_differ (now : Nat) (diff : ℚ) (rnd : Nat → Nat) (idx : Nat)
    (e : Enemy) (prev : Pos) (s : EnemyPassSt) (hact : e.active = true) (hevs : s.evs = []) :
    (enemySlotStep now diff rnd idx e prev s).2.1 =
      (truncQ e.x, truncQ (qAdd e.y e.speed)) ∧
    (enemySlotStep now diff rnd idx e prev s).2.2.evs.filter isEnemyDrawEv =
      [Ev.draw .enemy idx (truncQ e.x) (truncQ (qAdd e.y e.speed))] ∧
    ((enemySlotStep now diff rnd idx e prev s).1.active = false ↔ qAdd e.y e.speed > 160) ∧
    ((enemySlotStep now diff rnd idx e prev s).1.active = false →
      (enemySlotStep now diff rnd idx e prev s).2.2.evs.filter isEnemyEraseDeadEv =
        emitErase (Ev.eraseDead .enemy idx) (truncQ e.x) (truncQ (qAdd e.y e.speed))
          CAR_W (CAR_H + 4)) ∧
    ((enemySlotStep now diff rnd idx e prev s).1.active = true →
      (enemySlotStep now diff rnd idx e prev s).2.2.evs.filter isEnemyEraseDeadEv = []) ∧
    ((enemySlotStep now diff rnd idx e prev s).2.2.evs.filter isEnemyEraseStaleEv =
      (if prev.2 ≥ -1000 then
        emitErase (Ev.eraseStale .enemy idx) prev.1 prev.2 CAR_W (CAR_H + 4) else [])) := by
  unfold enemySlotStep
  rw [if_pos hact]
  dsimp only
  by_cases hoff : qAdd e.y e.speed > 160
  · rw [if_pos hoff]
    dsimp only
    refine ⟨rfl, ?_, by simp [hoff], fun _ => ?_, ?_, ?_⟩
    · simp [hevs, List.filter_append, apply_ite (List.filter isEnemyDrawEv),
        filter_emitErase_neg isEnemyDrawEv (Ev.eraseStale .enemy idx) (fun _ _ _ _ => rfl),
        filter_emitErase_neg isEnemyDrawEv (Ev.eraseDead .enemy idx) (fun _ _ _ _ => rfl),
        List.filter, isEnemyDrawEv]
    · simp [hevs, List.filter_append, apply_ite (List.filter isEnemyEraseDeadEv),
        filter_emitErase_neg isEnemyEraseDeadEv (Ev.eraseStale .enemy idx) (fun _ _ _ _ => rfl),
        filter_emitErase_pos isEnemyEraseDeadEv (Ev.eraseDead .enemy idx) (fun _ _ _ _ => rfl),
        List.filter, isEnemyEraseDeadEv]
    · intro hcontra
      simp at hcontra
    · simp [hevs, List.filter_append, apply_ite (List.filter isEnemyEraseStaleEv),
        filter_emitErase_pos isEnemyEraseStaleEv (Ev.eraseStale .enemy idx) (fun _ _ _ _ => rfl),
        filter_emitErase_neg isEnemyEraseStaleEv (Ev.eraseDead .enemy idx) (fun _ _ _ _ => rfl),
        List.filter, isEnemyEraseStaleEv]
  · rw [if_neg hoff]
    by_cases hfire : e.nextFireAt ≤ now
    · rw [if_pos hfire]
      dsimp only
      have hbase : (fireEnemyBullet { e with y := qAdd e.y e.speed } diff
          { s with evs := s.evs ++ ((if prev.2 ≥ -1000 then
              emitErase (Ev.eraseStale .enemy idx) prev.1 prev.2 CAR_W (CAR_H + 4) else []) ++
            [Ev.physics .enemy idx,
             Ev.draw .enemy idx (truncQ e.x) (truncQ (qAdd e.y e.speed))]) }).evs =
          (fireEnemyBullet { e with y := qAdd e.y e.speed } diff
          { s with evs := s.evs ++ ((if prev.2 ≥ -1000 then
              emitErase (Ev.eraseStale .enemy idx) prev.1 prev.2 CAR_W (CAR_H + 4) else []) ++
            [Ev.physics .enemy idx,
             Ev.draw .enemy idx (truncQ e.x) (truncQ (qAdd e.y e.speed))]) }).evs := rfl
      refine ⟨rfl, ?_, by simp [hact, hoff], fun hcontra => by simp [hact] at hcontra,
        fun _ => ?_, ?_⟩
      · rw [fireEnemyBullet_evs_filter _ _ _ _ (fun _ _ => rfl)]
        simp [hevs, List.filter_append, apply_ite (List.filter isEnemyDrawEv),
          filter_emitErase_neg isEnemyDrawEv (Ev.eraseStale .enemy idx) (fun _ _ _ _ => rfl),
          List.filter, isEnemyDrawEv]
      · rw [fireEnemyBullet_evs_filter _ _ _ _ (fun _ _ => rfl)]
        simp [hevs, List.filter_append, apply_ite (List.filter isEnemyEraseDeadEv),
          filter_emitErase_neg isEnemyEraseDeadEv (Ev.eraseStale .enemy idx)
            (fun _ _ _ _ => rfl),
          List.filter, isEnemyEraseDeadEv]
      · rw [fireEnemyBullet_evs_filter _ _ _ _ (fun _ _ => rfl)]
        simp [hevs, List.filter_append, apply_ite (List.filter isEnemyEraseStaleEv),
          filter_emitErase_pos isEnemyEraseStaleEv (Ev.eraseStale .enemy idx)
            (fun _ _ _ _ => rfl),
          List.filter, isEnemyEraseStaleEv]
    · rw [if_neg hfire]
      refine ⟨rfl, ?_, by simp [hact, hoff], fun hcontra => by simp [hact] at hcontra,
        fun _ => ?_, ?_⟩
      · simp [hevs, List.filter_append, apply_ite (List.filter isEnemyDrawEv),
          filter_emitErase_neg isEnemyDrawEv (Ev.eraseStale .enemy idx) (fun _ _ _ _ => rfl),
          List.filter, isEnemyDrawEv]
      · simp [hevs, List.filter_append, apply_ite (List.filter isEnemyEraseDeadEv),
          filter_emitErase_neg isEnemyEraseDeadEv (Ev.eraseStale .enemy idx)
            (fun _ _ _ _ => rfl),
          List.filter, isEnemyEraseDeadEv]
      · simp [hevs, List.filter_append, apply_ite (List.filter isEnemyEraseStaleEv),
          filter_emitErase_pos isEnemyEraseStaleEv (Ev.eraseStale .enemy idx)
            (fun _ _ _ _ => rfl),
          List.filter, isEnemyEraseStaleEv]

theorem length_emitErase (mk : Int → Int → Int → Int → Ev) (x y w h : Int) :
    (emitErase mk x y w h).length = if eraseVisible x y w h then 1 else 0 := by
  unfold emitErase
  split <;> rfl

/-- Differ facts for one active player-bullet slot (lines 736-743): the
cache ends at the truncated post-integration position, which is where the
single draw targeted; the slot deactivates exactly on crossing the top
edge, erasing the just-drawn rectangle once (when it clips on-screen); the
stale erase targets exactly the incoming cached position. -/
theorem pbSlotStep_differ (idx : Nat) (b : Bullet) (prev : Pos) (hact : b.active = true) :
    (pbSlotStep idx b prev).2.1 = (truncQ b.x, truncQ (qAdd b.y b.vy)) ∧
    (pbSlotStep idx b prev).2.2.filter isPbDrawEv =
      [Ev.draw .pbullet idx (truncQ b.x) (truncQ (qAdd b.y b.vy))] ∧
    ((pbSlotStep idx b prev).1.active = false ↔ qAdd b.y b.vy < -12) ∧
    (pbSlotStep idx b prev).2.2.filter isPbEraseDeadEv =
      (if qAdd b.y b.vy < -12 then
        emitErase (Ev.eraseDead .pbullet idx) (truncQ b.x - 3) (truncQ (qAdd b.y b.vy) - 6) 6 12
       else []) ∧
    (pbSlotStep idx b prev).2.2.filter isPbEraseStaleEv =
      (if prev.2 ≥ 0 then
        emitErase (Ev.eraseStale .pbullet idx) (prev.1 - 3) (prev.2 - 6) 6 12 else []) := by
  unfold pbSlotStep
  rw [if_pos hact]
  dsimp only
  by_cases hoff : qAdd b.y b.vy < -12
  · simp only [if_pos hoff]
    refine ⟨by trivial, ?_, by simp [hoff], ?_, ?_⟩
    · simp [List.filter_append, apply_ite (List.filter isPbDrawEv),
        filter_emitErase_neg isPbDrawEv (Ev.eraseStale .pbullet idx) (fun _ _ _ _ => rfl),
        filter_emitErase_neg isPbDrawEv (Ev.eraseDead .pbullet idx) (fun _ _ _ _ => rfl),
        List.filter, isPbDrawEv]
    · simp [List.filter_append, apply_ite (List.filter isPbEraseDeadEv),
        filter_emitErase_neg isPbEraseDeadEv (Ev.eraseStale .pbullet idx) (fun _ _ _ _ => rfl),
        filter_emitErase_pos isPbEraseDeadEv (Ev.eraseDead .pbullet idx) (fun _ _ _ _ => rfl),
        List.filter, isPbEraseDeadEv]
    · simp [List.filter_append, apply_ite (List.filter isPbEraseStaleEv),
        filter_emitErase_pos isPbEraseStaleEv (Ev.eraseStale .pbullet idx) (fun _ _ _ _ => rfl),
        filter_emitErase_neg isPbEraseStaleEv (Ev.eraseDead .pbullet idx) (fun _ _ _ _ => rfl),
        List.filter, isPbEraseStaleEv]
  · simp only [if_neg hoff]
    refine ⟨by trivial, ?_, by simp [hact, hoff], ?_, ?_⟩
    · simp [List.filter_append, apply_ite (List.filter isPbDrawEv),
        filter_emitErase_neg isPbDrawEv (Ev.eraseStale .pbullet idx) (fun _ _ _ _ => rfl),
        List.filter, isPbDrawEv]
    · simp [List.filter_append, apply_ite (List.filter isPbEraseDeadEv),
        filter_emitErase_neg isPbEraseDeadEv (Ev.eraseStale .pbullet idx) (fun _ _ _ _ => rfl),
        List.filter, isPbEraseDeadEv]
    · simp [List.filter_append, apply_ite (List.filter isPbEraseStaleEv),
        filter_emitErase_pos isPbEraseStaleEv (Ev.eraseStale .pbullet idx) (fun _ _ _ _ => rfl),
        List.filter, isPbEraseStaleEv]

/-- Differ facts for one active enemy-bullet slot (lines 746-753),
analogous to `pbSlotStep_differ` with the bottom-edge bound. -/
theorem ebSlotStep_differ (idx : Nat) (b : Bullet) (prev : Pos) (hact : b.active = true) :
    (ebSlotStep idx b prev).2.1 = (truncQ b.x, truncQ (qAdd b.y b.vy)) ∧
    (ebSlotStep idx b prev).2.2.filter isEbDrawEv =
      [Ev.draw .ebullet idx (truncQ b.x) (truncQ (qAdd b.y b.vy))] ∧
    ((ebSlotStep idx b prev).1.active = false ↔ qAdd b.y b.vy > 172) ∧
    (ebSlotStep idx b prev).2.2.filter isEbEraseDeadEv =
      (if qAdd b.y b.vy > 172 then
        emitErase (Ev.eraseDead .ebullet idx) (truncQ b.x - 3) (truncQ (qAdd b.y b.vy) - 6) 6 12
       else []) ∧
    (ebSlotStep idx b prev).2.2.filter isEbEraseStaleEv =
      (if prev.2 ≥ 0 then
        emitErase (Ev.eraseStale .ebullet idx) (prev.1 - 3) (prev.2 - 6) 6 12 else []) := by
  unfold ebSlotStep
  rw [if_pos hact]
  dsimp only
  by_cases hoff : qAdd b.y b.vy > 172
  · simp only [if_pos hoff]
    refine ⟨by trivial, ?_, by simp [hoff], ?_, ?_⟩
    · simp [List.filter_append, apply_ite (List.filter isEbDrawEv),
        filter_emitErase_neg isEbDrawEv (Ev.eraseStale .ebullet idx) (fun _ _ _ _ => rfl),
        filter_emitErase_neg isEbDrawEv (Ev.eraseDead .ebullet idx) (fun _ _ _ _ => rfl),
        List.filter, isEbDrawEv]
    · simp [List.filter_append, apply_ite (List.filter isEbEraseDeadEv),
        filter_emitErase_neg isEbEraseDeadEv (Ev.eraseStale .ebullet idx) (fun _ _ _ _ => rfl),
        filter_emitErase_pos isEbEraseDeadEv (Ev.eraseDead .ebullet idx) (fun _ _ _ _ => rfl),
        List.filter, isEbEraseDeadEv]
    · simp [List.filter_append, apply_ite (List.filter isEbEraseStaleEv),
        filter_emitErase_pos isEbEraseStaleEv (Ev.eraseStale .ebullet idx) (fun _ _ _ _ => rfl),
        filter_emitErase_neg isEbEraseStaleEv (Ev.eraseDead .ebullet idx) (fun _ _ _ _ => rfl),
        List.filter, isEbEraseStaleEv]
  · simp only [if_neg hoff]
    refine ⟨by trivial, ?_, by simp [hact, hoff], ?_, ?_⟩
    · simp [List.filter_append, apply_ite (List.filter isEbDrawEv),
        filter_emitErase_neg isEbDrawEv (Ev.eraseStale .ebullet idx) (fun _ _ _ _ => rfl),
        List.filter, isEbDrawEv]
    · simp [List.filter_append, apply_ite (List.filter isEbEraseDeadEv),
        filter_emitErase_neg isEbEraseDeadEv (Ev.eraseStale .ebullet idx) (fun _ _ _ _ => rfl),
        List.filter, isEbEraseDeadEv]
    · simp [List.filter_append, apply_ite (List.filter isEbEraseStaleEv),
        filter_emitErase_pos isEbEraseStaleEv (Ev.eraseStale .ebullet idx) (fun _ _ _ _ => rfl),
        List.filter, isEbEraseStaleEv]

/-- In the player-bullet collision scan, the bullet's cached rectangle is
erased once PER ENEMY HIT (whenever the rectangle clips on-screen), because
the inner loop of lines 758-771 never re-checks the bullet's active flag. -/
theorem pbScanEnemies_pb_erase_count (bi : Nat) (bx byv : Int) (prevB : Pos) :
    ∀ (k : Nat) (ens : List Enemy),
    ((pbScanEnemies bi bx byv prevB k ens).2.2.2.filter isPbEraseDeadEv).length =
      (if eraseVisible (prevB.1 - 3) (prevB.2 - 6) 6 12 then
        (ens.filter (fun e => e.active && hitTest bx byv (truncQ e.x) (truncQ e.y))).length
      else 0) := by
  intro k ens
  induction ens generalizing k with
  | nil => simp [pbScanEnemies]
  | cons e rest ih =>
    unfold pbScanEnemies
    by_cases ha : e.active
    · rw [if_pos ha]
      by_cases hh : hitTest bx byv (truncQ e.x) (truncQ e.y)
      · rw [if_pos hh]
        dsimp only
        rw [List.filter_append, List.length_append, ih]
        simp only [List.filter_append, List.length_append, List.filter_cons, List.filter_nil,
          filter_emitErase_neg isPbEraseDeadEv (Ev.eraseDead .enemy k) (fun _ _ _ _ => rfl),
          filter_emitErase_pos isPbEraseDeadEv (Ev.eraseDead .pbullet bi) (fun _ _ _ _ => rfl),
          filter_emitErase_neg isPbEraseDeadEv (Ev.eraseStale .explosion k) (fun _ _ _ _ => rfl),
          length_emitErase, ha, hh]
        simp [isPbEraseDeadEv, ha, hh, List.filter_cons]
        split <;> omega
      · rw [if_neg hh]
        dsimp only
        rw [List.filter_cons]
        simp [isPbEraseDeadEv, ih, ha, hh, List.filter_cons]
    · rw [if_neg ha]
      dsimp only
      simp [ih, ha, List.filter_cons]

/-- The enemy-bullet vs. player scan (lines 774-784) issues at most one
dead-rectangle erase: the loop breaks after the first registered hit. -/
theorem ebPlayerScan_dead_le_one (px py : Int) :
    ∀ (k : Nat) (bps : List (Bullet × Pos)),
    ((ebPlayerScan px py k bps).2.2.filter isEraseDeadEv).length ≤ 1 := by
  intro k bps
  induction bps generalizing k with
  | nil => simp [ebPlayerScan]
  | cons bp rest ih =>
    unfold ebPlayerScan
    by_cases ha : bp.1.active
    · rw [if_pos ha]
      by_cases hh : hitTest (truncQ bp.1.x) (truncQ bp.1.y) px py
      · rw [if_pos hh]
        dsimp only
        rw [List.filter_cons]
        simp [isEraseDeadEv,
          filter_emitErase_pos isEraseDeadEv (Ev.eraseDead .ebullet k) (fun _ _ _ _ => rfl),
          length_emitErase]
        split <;> omega
      · rw [if_neg hh]
        dsimp only
        rw [List.filter_cons]
        simp [isEraseDeadEv, ih]
    · rw [if_neg ha]
      dsimp only
      exact ih _

/-- C1 (amended). Render-cache consistency of game2: after each iteration
of a movement loop the slot's cache equals the truncated post-integration
position, which is exactly where that iteration's single draw targeted; a
slot deactivated by the off-screen bounds check has its just-drawn
rectangle erased once (clipped away only when fully off-screen); the
player's cache equals the drawn player position. The amendment concerns
the collision pass: there a bullet's cached rectangle is erased once per
overlapping enemy — not exactly once — because the inner loop of lines
758-771 never re-checks the bullet's active flag; the enemy-bullet/player
scan erases at most one rectangle per frame. -/
theorem c1_render_cache
    (idx : Nat) (b : Bullet) (prev : Pos)
    (jdx : Nat) (bb : Bullet) (prevb : Pos)
    (now : Nat) (diff : ℚ) (rnd : Nat → Nat) (edx : Nat) (e : Enemy) (prevE : Pos)
    (s : EnemyPassSt) (st : GState)
    (bi : Nat) (bx byv : Int) (prevB : Pos) (k : Nat) (ens : List Enemy)
    (px py : Int) (j : Nat) (bps : List (Bullet × Pos))
    (hb : b.active = true) (hbb : bb.active = true)
    (he : e.active = true) (hs : s.evs = []) :
    ((playerDrawPhase st).1.prevPlayer = (truncQ st.playerX, playerYpos) ∧
      (playerDrawPhase st).2 = [Ev.draw .player 0 (truncQ st.playerX) playerYpos]) ∧
    ((pbSlotStep idx b prev).2.1 = (truncQ b.x, truncQ (qAdd b.y b.vy)) ∧
      (pbSlotStep idx b prev).2.2.filter isPbDrawEv =
        [Ev.draw .pbullet idx (truncQ b.x) (truncQ (qAdd b.y b.vy))] ∧
      (pbSlotStep idx b prev).2.2.filter isPbEraseDeadEv =
        (if qAdd b.y b.vy < -12 then
          emitErase (Ev.eraseDead .pbullet idx) (truncQ b.x - 3) (truncQ (qAdd b.y b.vy) - 6) 6 12
         else [])) ∧
    ((ebSlotStep jdx bb prevb).2.1 = (truncQ bb.x, truncQ (qAdd bb.y bb.vy)) ∧
      (ebSlotStep jdx bb prevb).2.2.filter isEbDrawEv =
        [Ev.draw .ebullet jdx (truncQ bb.x) (truncQ (qAdd bb.y bb.vy))] ∧
      (ebSlotStep jdx bb prevb).2.2.filter isEbEraseDeadEv =
        (if qAdd bb.y bb.vy > 172 then
          emitErase (Ev.eraseDead .ebullet jdx)
            (truncQ bb.x - 3) (truncQ (qAdd bb.y bb.vy) - 6) 6 12
         else [])) ∧
    ((enemySlotStep now diff rnd edx e prevE s).2.1 =
        (truncQ e.x, truncQ (qAdd e.y e.speed)) ∧
      (enemySlotStep now diff rnd edx e prevE s).2.2.evs.filter isEnemyDrawEv =
        [Ev.draw .enemy edx (truncQ e.x) (truncQ (qAdd e.y e.speed))] ∧
      ((enemySlotStep now diff rnd edx e prevE s).1.active = false ↔
        qAdd e.y e.speed > 160) ∧
      ((enemySlotStep now diff rnd edx e prevE s).1.active = false →
        (enemySlotStep now diff rnd edx e prevE s).2.2.evs.filter isEnemyEraseDeadEv =
          emitErase (Ev.eraseDead .enemy edx) (truncQ e.x) (truncQ (qAdd e.y e.speed))
            CAR_W (CAR_H + 4)) ∧
      ((enemySlotStep now diff rnd edx e prevE s).1.active = true →
        (enemySlotStep now diff rnd edx e prevE s).2.2.evs.filter isEnemyEraseDeadEv = [])) ∧
    (((pbScanEnemies bi bx byv prevB k ens).2.2.2.filter isPbEraseDeadEv).length =
      (if eraseVisible (prevB.1 - 3) (prevB.2 - 6) 6 12 then
        (ens.filter (fun en => en.active && hitTest bx byv (truncQ en.x) (truncQ en.y))).length
      else 0)) ∧
    ((ebPlayerScan px py j bps).2.2.filter isEraseDeadEv).length ≤ 1 := by
  obtain ⟨p1, p2, _, p4, _⟩ := pbSlotStep_differ idx b prev hb
  obtain ⟨q1, q2, _, q4, _⟩ := ebSlotStep_differ jdx bb prevb hbb
  obtain ⟨r1, r2, r3, r4, r5, _⟩ := enemySlotStep_differ now diff rnd edx e prevE s he hs
  exact ⟨⟨rfl, rfl⟩, ⟨p1, p2, p4⟩, ⟨q1, q2, q4⟩, ⟨r1, r2, r3, r4, r5⟩,
    pbScanEnemies_pb_erase_count bi bx byv prevB k ens,
    ebPlayerScan_dead_le_one px py j bps⟩

theorem c1_render_cache_witness :
    ({ x := 50, y := 55, vy := -4, active := true } : Bullet).active = true ∧
    (pbSlotStep 0 { x := 50, y := 55, vy := -4, active := true } (50, 61)).2.1 =
      (truncQ 50, truncQ (qAdd 55 (-4))) :=
  ⟨rfl,
    (c1_render_cache 0 { x := 50, y := 55, vy := -4, active := true } (50, 61)
      0 { x := 30, y := 100, vy := 3, active := true } (30, 97)
      0 1 (fun _ => 0) 0
      { x := 50, y := -50, speed := 1, active := true, nextFireAt := 1000, lane := 0 }
      (-100, -100) ⟨[], [], 0, []⟩
      { playerX := 50, playerVel := 0, lastN := 0, lastPlayerFire := 0,
        enemies := [], pb := [], eb := [],
        prevPlayer := (50, 132), prevE := [], prevPB := [], prevEB := [],
        score := 0, lastScoreTick := 0, isGameOver := false }
      0 50 55 (50, 61) 0 [] 64 132 0 []
      rfl rfl rfl rfl).2.1.1⟩

def c1CexBullets : List (Bullet × Pos) :=
  [({ x := 50, y := 55, vy := 0, active := true }, (50, 61))]

def c1CexEnemies : List Enemy :=
  [{ x := 40, y := 50, speed := 1, active := true, nextFireAt := 0, lane := 0 },
   { x := 45, y := 50, speed := 1, active := true, nextFireAt := 0, lane := 1 }]

/-- Counterexample to C1 as stated: one player bullet at (50,55) (cached
rectangle on-screen at cache (50,61)) overlaps two active enemies at
(40,50) and (45,50); the collision pass deactivates the bullet but erases
its cached rectangle twice — once per hit enemy — not exactly once. -/
theorem c1_render_cache_counterexample :
    ((pbCollisionPass 0 c1CexBullets c1CexEnemies).1.getD 0
        ({ x := 0, y := 0, vy := 0, active := false }, (0, 0))).1.active = false ∧
    ((pbCollisionPass 0 c1CexBullets c1CexEnemies).2.2.2.filter isPbEraseDeadEv).length = 2 ∧
    ¬ ((pbCollisionPass 0 c1CexBullets c1CexEnemies).2.2.2.filter
        isPbEraseDeadEv).length = 1 := by
  decide

end ESPConsole
